import Mathlib

set_option linter.unusedVariables false

/- Shallow embedding of the invoices plugin (wallet verification, TON invoices,
   cached on-chain transfer matching). Modelling conventions, applied uniformly:

   - TEXT columns holding decimal BigInt strings (amounts, logical times) are
     modelled as `Option Int`: `none` is SQL NULL or a string `BigInt(...)`
     fails on (`toBigIntSafe` returning null); `some n` is the numeric value.
   - ISO-8601 TEXT timestamp columns are modelled as `Option Int`, the
     millisecond value `Date.parse` yields; `none` is NULL.  The program only
     stores `new Date(..).toISOString()` strings, which always parse back.
   - JavaScript truthiness is modelled per type: for numbers `0` is falsy
     (`numTruthy`), for nullable strings NULL/empty is falsy (`Option.isSome`
     under the convention that the empty string is modelled as `none`).
   - TON addresses appear post-`normalizeAddress` (a pure normalization), so
     `sameAddress` is plain equality on `Option String`, never true on NULL.
   - String tool parameters are modelled after `String(x ?? "").trim()`.
   - `Date.now()` / `new Date().toISOString()` are a single `now : Int`
     parameter (milliseconds). Randomness (`randomBytes`) and the agent wallet
     file are oracle parameters.
-/

def numTruthy : Option Int → Bool
  | some n => n != 0
  | none => false

def sameAddress : Option String → Option String → Bool
  | some a, some b => a == b
  | _, _ => false

/-- commentTag: first `|`-separated token of a transfer comment, trimmed;
null when the comment or the head token is empty. -/
def commentTag (comment : String) : Option String :=
  let head := (((comment.splitOn "|").headD "").trim)
  if head = "" then none else some head

/-- eventTimeMs: seconds-to-milliseconds conversion of an event time field;
`none` models an absent or non-finite value. -/
def eventTimeMs (ts : Option Int) : Option Int :=
  ts.map (· * 1000)

/-- Row of the `inv_transfers` table (composite key wallet/event_id/action_index). -/
structure TransferRow where
  wallet : String
  event_id : String
  action_index : Nat
  lt : Option Int
  timestamp : Option Int
  sender : Option String
  recipient : Option String
  amount_nano : Option Int
  comment : String
  comment_tag : Option String
  inserted_at : Int
  deriving Repr, DecidableEq

/-- Sort key used by `ORDER BY timestamp ASC`; rows reaching the sort always
have a non-null timestamp (the WHERE clause filters NULLs out). -/
def tsKey (r : TransferRow) : Int := r.timestamp.getD 0

/-- WHERE clause of `stmtTransferQuery`: wallet and comment_tag equality
(SQL `=` with a NULL operand never matches) and a non-null timestamp inside
the closed window. -/
def transferWhere (wallet : String) (tag : Option String)
    (startMs endMs : Option Int) (r : TransferRow) : Bool :=
  r.wallet == wallet &&
  (match tag, r.comment_tag with
   | some tg, some ct => ct == tg
   | _, _ => false) &&
  (match r.timestamp, startMs, endMs with
   | some t, some s, some e => decide (s ≤ t) && decide (t ≤ e)
   | _, _, _ => false)

/-- Insertion step of an insertion sort by `tsKey`, modelling the
`ORDER BY timestamp ASC` of `stmtTransferQuery` (ties in unspecified order,
as in SQLite; the theorems below do not depend on tie order). -/
def insortTransfer (r : TransferRow) : List TransferRow → List TransferRow
  | [] => [r]
  | x :: xs => if tsKey r ≤ tsKey x then r :: x :: xs else x :: insortTransfer r xs

def sortByTimestamp (l : List TransferRow) : List TransferRow :=
  l.foldr insortTransfer []

/-- stmtTransferQuery: SELECT rows for (wallet, tag) with non-null timestamp
in [startMs, endMs], ordered by timestamp ascending, LIMIT lim. -/
def stmtTransferQuery (cache : List TransferRow) (wallet : String)
    (tag : Option String) (startMs endMs : Option Int) (lim : Nat) :
    List TransferRow :=
  (sortByTimestamp (cache.filter (transferWhere wallet tag startMs endMs))).take lim

/-- Scan predicate of `queryCachedTransfer`'s row loop: the amount string
parses and is at least the minimum, and in strict mode with a truthy expected
sender the row's sender matches it. -/
def transferPasses (minAmountNano : Int) (expectedSender : Option String)
    (strictSender : Bool) (r : TransferRow) : Bool :=
  match r.amount_nano with
  | none => false
  | some a =>
    if a < minAmountNano then false
    else if expectedSender.isSome && strictSender &&
        !(sameAddress r.sender expectedSender) then false
    else true

/-- queryCachedTransfer: first row of the ascending-timestamp query (LIMIT 50)
that passes the amount and strict-sender checks. -/
def queryCachedTransfer (cache : List TransferRow) (wallet : String)
    (tag : Option String) (startMs endMs : Option Int) (minAmountNano : Int)
    (expectedSender : Option String) (strictSender : Bool) : Option TransferRow :=
  (stmtTransferQuery cache wallet tag startMs endMs 50).find?
    (transferPasses minAmountNano expectedSender strictSender)

-- Sorting lemmas ------------------------------------------------------------

lemma mem_insortTransfer {a r : TransferRow} : ∀ {l : List TransferRow},
    a ∈ insortTransfer r l ↔ a = r ∨ a ∈ l := by
  intro l
  induction l with
  | nil => simp [insortTransfer]
  | cons x xs ih =>
    by_cases h : tsKey r ≤ tsKey x
    · simp [insortTransfer, h]
    · simp only [insortTransfer, if_neg h, List.mem_cons, ih]
      tauto

lemma mem_sortByTimestamp {a : TransferRow} : ∀ {l : List TransferRow},
    a ∈ sortByTimestamp l ↔ a ∈ l := by
  intro l
  induction l with
  | nil => simp [sortByTimestamp]
  | cons x xs ih =>
    show a ∈ insortTransfer x (sortByTimestamp xs) ↔ _
    rw [mem_insortTransfer]
    simp [ih]

lemma pairwise_insortTransfer {r : TransferRow} : ∀ {l : List TransferRow},
    l.Pairwise (fun a b => tsKey a ≤ tsKey b) →
    (insortTransfer r l).Pairwise (fun a b => tsKey a ≤ tsKey b) := by
  intro l
  induction l with
  | nil => intro _; simp [insortTransfer]
  | cons x xs ih =>
    intro hp
    rcases List.pairwise_cons.mp hp with ⟨hx, hxs⟩
    by_cases h : tsKey r ≤ tsKey x
    · rw [insortTransfer, if_pos h]
      refine List.pairwise_cons.mpr ⟨?_, hp⟩
      intro b hb
      rcases List.mem_cons.mp hb with rfl | hb'
      · exact h
      · exact le_trans h (hx b hb')
    · rw [insortTransfer, if_neg h]
      refine List.pairwise_cons.mpr ⟨?_, ih hxs⟩
      intro b hb
      rcases mem_insortTransfer.mp hb with rfl | hb'
      · exact le_of_lt (lt_of_not_le h)
      · exact hx b hb'

lemma pairwise_sortByTimestamp : ∀ (l : List TransferRow),
    (sortByTimestamp l).Pairwise (fun a b => tsKey a ≤ tsKey b) := by
  intro l
  induction l with
  | nil => simp [sortByTimestamp]
  | cons x xs ih => exact pairwise_insortTransfer ih

lemma find?_take_sorted {p : TransferRow → Bool} :
    ∀ (l : List TransferRow) (n : Nat) (r : TransferRow),
      l.Pairwise (fun a b => tsKey a ≤ tsKey b) →
      (l.take n).find? p = some r →
      ∀ x ∈ l, p x = true → tsKey r ≤ tsKey x := by
  intro l
  induction l with
  | nil => intro n r _ h; simp at h
  | cons a t ih =>
    intro n r hp h x hx hpx
    cases n with
    | zero => simp at h
    | succ m =>
      rw [List.take_succ_cons] at h
      rcases List.pairwise_cons.mp hp with ⟨ha, ht⟩
      by_cases hpa : p a = true
      · rw [List.find?_cons_of_pos _ hpa] at h
        cases h
        rcases List.mem_cons.mp hx with rfl | hx'
        · exact le_refl _
        · exact ha x hx'
      · rw [List.find?_cons_of_neg _ (by simpa using hpa)] at h
        rcases List.mem_cons.mp hx with rfl | hx'
        · exact absurd hpx hpa
        · exact ih m r ht h x hx' hpx

lemma transferWhere_spec {wallet tag : String} {s e : Int} {r : TransferRow}
    (h : transferWhere wallet (some tag) (some s) (some e) r = true) :
    r.wallet = wallet ∧ r.comment_tag = some tag ∧
    ∃ t, r.timestamp = some t ∧ s ≤ t ∧ t ≤ e := by
  cases hct : r.comment_tag with
  | none => simp [transferWhere, hct] at h
  | some ct =>
    cases hts : r.timestamp with
    | none => simp [transferWhere, hct, hts] at h
    | some t =>
      simp [transferWhere, hct, hts] at h
      obtain ⟨⟨hw, hct'⟩, hst, hte⟩ := h
      exact ⟨hw, by rw [hct'], t, rfl, hst, hte⟩

lemma transferPasses_spec {minA : Int} {es : Option String} {strict : Bool}
    {r : TransferRow} (h : transferPasses minA es strict r = true) :
    (∃ a, r.amount_nano = some a ∧ minA ≤ a) ∧
    (strict = true → es.isSome = true → sameAddress r.sender es = true) := by
  cases ha : r.amount_nano with
  | none => simp [transferPasses, ha] at h
  | some a =>
    simp only [transferPasses, ha] at h
    by_cases hlt : a < minA
    · simp [hlt] at h
    · refine ⟨⟨a, rfl, not_lt.mp hlt⟩, ?_⟩
      intro hs hes
      by_cases hsame : sameAddress r.sender es = true
      · exact hsame
      · simp [hlt, hs, hes, hsame] at h

/-- C1: whenever `queryCachedTransfer` (the matcher's cache lookup used by
inv_check and inv_confirm_verification) returns a transfer, that transfer has
the requested tag, a timestamp inside [start, end], an amount at least the
minimum and — in strict mode with a truthy expected sender — the expected
sender; and it is chronologically earliest among all cached transfers
satisfying these constraints (in non-strict mode regardless of sender). -/
theorem matcher_sound_and_earliest (cache : List TransferRow)
    (wallet tag : String) (s e minA : Int) (es : Option String) (strict : Bool)
    (r : TransferRow)
    (h : queryCachedTransfer cache wallet (some tag) (some s) (some e) minA es
          strict = some r) :
    r ∈ cache ∧ r.wallet = wallet ∧ r.comment_tag = some tag ∧
    (∃ t, r.timestamp = some t ∧ s ≤ t ∧ t ≤ e) ∧
    (∃ a, r.amount_nano = some a ∧ minA ≤ a) ∧
    (strict = true → es.isSome = true → sameAddress r.sender es = true) ∧
    (∀ r' ∈ cache,
       transferWhere wallet (some tag) (some s) (some e) r' = true →
       transferPasses minA es strict r' = true → tsKey r ≤ tsKey r') := by
  have hpass : transferPasses minA es strict r = true := List.find?_some h
  have hmem0 : r ∈ (sortByTimestamp
      (cache.filter (transferWhere wallet (some tag) (some s) (some e)))).take 50 :=
    List.mem_of_find?_eq_some h
  have hmem1 : r ∈ sortByTimestamp
      (cache.filter (transferWhere wallet (some tag) (some s) (some e))) :=
    List.take_subset _ _ hmem0
  have hmem2 : r ∈ cache.filter (transferWhere wallet (some tag) (some s) (some e)) :=
    mem_sortByTimestamp.mp hmem1
  have hmemc : r ∈ cache := (List.mem_filter.mp hmem2).1
  have hw : transferWhere wallet (some tag) (some s) (some e) r = true :=
    (List.mem_filter.mp hmem2).2
  obtain ⟨hw1, hw2, hw3⟩ := transferWhere_spec hw
  obtain ⟨hp1, hp2⟩ := transferPasses_spec hpass
  refine ⟨hmemc, hw1, hw2, hw3, hp1, hp2, ?_⟩
  intro r' hr' hwr' hpr'
  have hr's : r' ∈ sortByTimestamp
      (cache.filter (transferWhere wallet (some tag) (some s) (some e))) :=
    mem_sortByTimestamp.mpr (List.mem_filter.mpr ⟨hr', hwr'⟩)
  exact find?_take_sorted _ 50 r (pairwise_sortByTimestamp _) h r' hr's hpr'

/-- Demo cache rows exercising the strict matcher: an earlier transfer with
the wrong sender and a later one with the expected sender. -/
def demoRowBad : TransferRow :=
  ⟨"w", "e1", 0, none, some 5, some "bad", some "w", some 150, "INV#x", some "INV#x", 0⟩

def demoRowGood : TransferRow :=
  ⟨"w", "e2", 0, none, some 7, some "good", some "w", some 200, "INV#x", some "INV#x", 0⟩

/-- Witness for C1 at a concrete cache: the strict query skips the earlier
wrong-sender transfer and returns the later right-sender one, which belongs to
the cache, carries the requested tag, and has the expected sender. -/
theorem matcher_sound_and_earliest_witness :
    demoRowGood ∈ [demoRowBad, demoRowGood] ∧
    demoRowGood.comment_tag = some "INV#x" ∧
    sameAddress demoRowGood.sender (some "good") = true :=
  ⟨(matcher_sound_and_earliest [demoRowBad, demoRowGood] "w" "INV#x" 0 100 100
      (some "good") true demoRowGood (by decide)).1,
   (matcher_sound_and_earliest [demoRowBad, demoRowGood] "w" "INV#x" 0 100 100
      (some "good") true demoRowGood (by decide)).2.2.1,
   (matcher_sound_and_earliest [demoRowBad, demoRowGood] "w" "INV#x" 0 100 100
      (some "good") true demoRowGood (by decide)).2.2.2.2.2.1 rfl rfl⟩

-- Rate limiter ---------------------------------------------------------------

/-- Row of the `inv_rate_limits` table. -/
structure RateRow where
  key : String
  window_start : Int
  count : Int
  deriving Repr, DecidableEq

/-- Per-tool rate configuration produced by `getRateLimitConfig`
(`windowMs ≥ 1000`, `max ≥ 1` by the `Math.max` clamps there). -/
structure RateCfg where
  windowMs : Int
  max : Int
  deriving Repr, DecidableEq

structure RateResult where
  allowed : Bool
  remaining : Option Int := none
  retryAfterMs : Option Int := none
  deriving Repr, DecidableEq

def rateKey (toolName : String) (senderId : Int) : String :=
  toolName ++ ":" ++ toString senderId

def stmtRateGet (rows : List RateRow) (k : String) : Option RateRow :=
  rows.find? (fun r => r.key == k)

/-- INSERT OR REPLACE keyed on `key`. -/
def stmtRateSet (rows : List RateRow) (k : String) (ws cnt : Int) : List RateRow :=
  if rows.any (fun r => r.key == k) then
    rows.map (fun r => if r.key == k then ⟨k, ws, cnt⟩ else r)
  else rows ++ [⟨k, ws, cnt⟩]

/-- checkRateLimit: fixed-window counter per (tool, caller). -/
def checkRateLimit (rows : List RateRow) (senderId : Int) (toolName : String)
    (cfg : RateCfg) (now : Int) : RateResult × List RateRow :=
  let key := rateKey toolName senderId
  match stmtRateGet rows key with
  | none =>
      ({ allowed := true, remaining := some (cfg.max - 1) },
       stmtRateSet rows key now 1)
  | some row =>
      if cfg.windowMs ≤ now - row.window_start then
        ({ allowed := true, remaining := some (cfg.max - 1) },
         stmtRateSet rows key now 1)
      else if cfg.max ≤ row.count then
        ({ allowed := false,
           retryAfterMs := some (cfg.windowMs - (now - row.window_start)) }, rows)
      else
        ({ allowed := true, remaining := some (cfg.max - row.count - 1) },
         stmtRateSet rows key row.window_start (row.count + 1))

/-- Sequence of rate-limited calls at the given times; `true` iff all allowed. -/
def rlCalls (senderId : Int) (toolName : String) (cfg : RateCfg) :
    List Int → List RateRow → Bool × List RateRow
  | [], rows => (true, rows)
  | t :: ts, rows =>
    let step := checkRateLimit rows senderId toolName cfg t
    let rest := rlCalls senderId toolName cfg ts step.2
    (step.1.allowed && rest.1, rest.2)

lemma find?_mapSet (k : String) (ws cnt : Int) : ∀ (rs : List RateRow),
    rs.any (fun r => r.key == k) = true →
    (rs.map (fun r => if r.key == k then (⟨k, ws, cnt⟩ : RateRow) else r)).find?
      (fun r => r.key == k) = some ⟨k, ws, cnt⟩ := by
  intro rs
  induction rs with
  | nil => intro h; simp at h
  | cons a l ih =>
    intro h
    by_cases hk : (a.key == k) = true
    · simp [List.map_cons, hk, List.find?]
    · have h' : l.any (fun r => r.key == k) = true := by
        simpa [List.any_cons, hk] using h
      simp only [List.map_cons, if_neg hk]
      rw [List.find?_cons_of_neg _ (by simpa using hk)]
      exact ih h'

lemma find?_appendSet (k : String) (ws cnt : Int) : ∀ (rs : List RateRow),
    rs.any (fun r => r.key == k) = false →
    (rs ++ [(⟨k, ws, cnt⟩ : RateRow)]).find? (fun r => r.key == k) =
      some ⟨k, ws, cnt⟩ := by
  intro rs
  induction rs with
  | nil => intro _; simp [List.find?]
  | cons a l ih =>
    intro h
    have hk : (a.key == k) = false := by
      rcases List.any_eq_false.mp h a (by simp) with h'
      simpa using h'
    have h' : l.any (fun r => r.key == k) = false := by
      rw [List.any_eq_false] at h ⊢
      intro x hx; exact h x (by simp [hx])
    rw [List.cons_append, List.find?_cons_of_neg _ (by simpa using hk)]
    exact ih h'

lemma rateGet_rateSet (rows : List RateRow) (k : String) (ws cnt : Int) :
    stmtRateGet (stmtRateSet rows k ws cnt) k = some ⟨k, ws, cnt⟩ := by
  unfold stmtRateSet stmtRateGet
  by_cases h : rows.any (fun r => r.key == k) = true
  · rw [if_pos h]; exact find?_mapSet k ws cnt rows h
  · rw [if_neg h]; exact find?_appendSet k ws cnt rows (Bool.eq_false_iff.mpr h)

lemma rlCalls_within (senderId : Int) (toolName : String) (cfg : RateCfg) :
    ∀ (ts : List Int) (rows : List RateRow) (t0 cnt : Int),
      stmtRateGet rows (rateKey toolName senderId) =
        some ⟨rateKey toolName senderId, t0, cnt⟩ →
      cnt + (ts.length : Int) ≤ cfg.max →
      1 ≤ cnt →
      (∀ t ∈ ts, t - t0 < cfg.windowMs) →
      (rlCalls senderId toolName cfg ts rows).1 = true ∧
      stmtRateGet (rlCalls senderId toolName cfg ts rows).2
          (rateKey toolName senderId) =
        some ⟨rateKey toolName senderId, t0, cnt + (ts.length : Int)⟩ := by
  intro ts
  induction ts with
  | nil =>
    intro rows t0 cnt hget _ _ _
    simpa [rlCalls] using hget
  | cons t ts ih =>
    intro rows t0 cnt hget hle h1 hw
    have hwin : ¬ (cfg.windowMs ≤ t - t0) := not_le.mpr (hw t (by simp))
    have hcnt : ¬ (cfg.max ≤ cnt) := by
      have : (0 : Int) ≤ (ts.length : Int) := Int.natCast_nonneg _
      simp only [List.length_cons, Nat.cast_add, Nat.cast_one] at hle
      omega
    have hstep : checkRateLimit rows senderId toolName cfg t =
        ({ allowed := true, remaining := some (cfg.max - cnt - 1) },
         stmtRateSet rows (rateKey toolName senderId) t0 (cnt + 1)) := by
      simp only [checkRateLimit]
      rw [hget]
      simp [hwin, hcnt]
    have hget' := rateGet_rateSet rows (rateKey toolName senderId) t0 (cnt + 1)
    have hrec := ih (stmtRateSet rows (rateKey toolName senderId) t0 (cnt + 1))
      t0 (cnt + 1) hget'
      (by simp only [List.length_cons, Nat.cast_add, Nat.cast_one] at hle; omega)
      (by omega) (fun x hx => hw x (by simp [hx]))
    refine ⟨?_, ?_⟩
    · show ((checkRateLimit rows senderId toolName cfg t).1.allowed &&
        (rlCalls senderId toolName cfg ts
          (checkRateLimit rows senderId toolName cfg t).2).1) = true
      rw [hstep]
      simpa using hrec.1
    · show stmtRateGet (rlCalls senderId toolName cfg ts
          (checkRateLimit rows senderId toolName cfg t).2).2 _ = _
      rw [hstep]
      rw [hrec.2]
      congr 1
      simp only [List.length_cons, Nat.cast_add, Nat.cast_one]
      congr 1
      omega

/-- C7: starting from a state with no counter row for (tool, caller), the
first `cfg.max` calls inside one fixed window (all within `windowMs` of the
first call at `t0`) are allowed; the next call still inside the window is
rejected with a strictly positive retry-after of `windowMs - (tN - t0)`; and
a call at least `windowMs` after the window start is allowed again, with the
counter reset to 1 and a new window start. -/
theorem rate_limit_fixed_window (cfg : RateCfg) (rows0 : List RateRow)
    (senderId : Int) (toolName : String) (t0 tN tR : Int) (ts : List Int)
    (hfresh : stmtRateGet rows0 (rateKey toolName senderId) = none)
    (hlen : (ts.length : Int) = cfg.max - 1)
    (hts : ∀ t ∈ ts, t - t0 < cfg.windowMs)
    (h0 : t0 - t0 < cfg.windowMs)
    (hN : tN - t0 < cfg.windowMs)
    (hR : cfg.windowMs ≤ tR - t0) :
    (rlCalls senderId toolName cfg (t0 :: ts) rows0).1 = true ∧
    ((checkRateLimit (rlCalls senderId toolName cfg (t0 :: ts) rows0).2
        senderId toolName cfg tN).1.allowed = false ∧
     (checkRateLimit (rlCalls senderId toolName cfg (t0 :: ts) rows0).2
        senderId toolName cfg tN).1.retryAfterMs =
       some (cfg.windowMs - (tN - t0)) ∧
     0 < cfg.windowMs - (tN - t0)) ∧
    ((checkRateLimit (rlCalls senderId toolName cfg (t0 :: ts) rows0).2
        senderId toolName cfg tR).1.allowed = true ∧
     stmtRateGet (checkRateLimit (rlCalls senderId toolName cfg (t0 :: ts) rows0).2
        senderId toolName cfg tR).2 (rateKey toolName senderId) =
       some ⟨rateKey toolName senderId, tR, 1⟩) := by
  have hstep0 : checkRateLimit rows0 senderId toolName cfg t0 =
      ({ allowed := true, remaining := some (cfg.max - 1) },
       stmtRateSet rows0 (rateKey toolName senderId) t0 1) := by
    simp only [checkRateLimit]
    rw [hfresh]
  have hget1 := rateGet_rateSet rows0 (rateKey toolName senderId) t0 1
  have hrun := rlCalls_within senderId toolName cfg ts
    (stmtRateSet rows0 (rateKey toolName senderId) t0 1) t0 1 hget1
    (by omega) le_rfl hts
  have hshape : rlCalls senderId toolName cfg (t0 :: ts) rows0 =
      ((checkRateLimit rows0 senderId toolName cfg t0).1.allowed &&
        (rlCalls senderId toolName cfg ts
          (checkRateLimit rows0 senderId toolName cfg t0).2).1,
       (rlCalls senderId toolName cfg ts
          (checkRateLimit rows0 senderId toolName cfg t0).2).2) := rfl
  have hall : (rlCalls senderId toolName cfg (t0 :: ts) rows0).1 = true := by
    rw [hshape, hstep0]
    simpa using hrun.1
  have hrows1 : stmtRateGet (rlCalls senderId toolName cfg (t0 :: ts) rows0).2
      (rateKey toolName senderId) =
      some ⟨rateKey toolName senderId, t0, cfg.max⟩ := by
    rw [hshape, hstep0]
    rw [hrun.2]
    congr 2
    omega
  have hmaxle : cfg.max ≤ cfg.max := le_rfl
  refine ⟨hall, ⟨?_, ?_, by omega⟩, ?_, ?_⟩
  · simp only [checkRateLimit]
    rw [hrows1]
    simp [not_le.mpr hN, hmaxle]
  · simp only [checkRateLimit]
    rw [hrows1]
    simp [not_le.mpr hN, hmaxle]
  · simp only [checkRateLimit]
    rw [hrows1]
    simp [hR]
  · simp only [checkRateLimit]
    rw [hrows1]
    simp only [if_pos hR]
    exact rateGet_rateSet _ _ _ _

/-- Witness for C7 with windowMs = 1000, max = 2: calls at t=0 and t=1 are
allowed, the third call at t=2 is rejected with retry-after 998 ms, and a
call at t=1000 is allowed again. -/
theorem rate_limit_fixed_window_witness :
    (rlCalls 7 "inv_check" ⟨1000, 2⟩ [0, 1] []).1 = true ∧
    (checkRateLimit (rlCalls 7 "inv_check" ⟨1000, 2⟩ [0, 1] []).2
        7 "inv_check" ⟨1000, 2⟩ 2).1.allowed = false ∧
    (checkRateLimit (rlCalls 7 "inv_check" ⟨1000, 2⟩ [0, 1] []).2
        7 "inv_check" ⟨1000, 2⟩ 2).1.retryAfterMs = some 998 ∧
    (checkRateLimit (rlCalls 7 "inv_check" ⟨1000, 2⟩ [0, 1] []).2
        7 "inv_check" ⟨1000, 2⟩ 1000).1.allowed = true :=
  ⟨(rate_limit_fixed_window ⟨1000, 2⟩ [] 7 "inv_check" 0 2 1000 [1] (by decide)
      (by decide) (by decide) (by decide) (by decide) (by decide)).1,
   (rate_limit_fixed_window ⟨1000, 2⟩ [] 7 "inv_check" 0 2 1000 [1] (by decide)
      (by decide) (by decide) (by decide) (by decide) (by decide)).2.1.1,
   (rate_limit_fixed_window ⟨1000, 2⟩ [] 7 "inv_check" 0 2 1000 [1] (by decide)
      (by decide) (by decide) (by decide) (by decide) (by decide)).2.1.2.1,
   (rate_limit_fixed_window ⟨1000, 2⟩ [] 7 "inv_check" 0 2 1000 [1] (by decide)
      (by decide) (by decide) (by decide) (by decide) (by decide)).2.2.1⟩

-- Event ingestion ------------------------------------------------------------

/-- A `TonTransfer` action payload as delivered by the upstream API.
`amount` is the integer value of `String(t.amount ?? "0")` (`none` when that
string does not parse as a BigInt); `comment` is `none` when the field is
absent (the code substitutes the empty string); addresses are modelled
post-normalization, `none` for null/empty. -/
structure TonTransferPayload where
  recipient : Option String
  sender : Option String
  amount : Option Int
  comment : Option String
  deriving Repr, DecidableEq

/-- An upstream event.  An entry `none` in `actions` models an action whose
`type` is not "TonTransfer" or whose `TonTransfer` payload is missing.
`lt` is `toBigIntSafe(ev.lt ?? ev.event_lt)` (`none` when null/unparsable);
`ts` is the numeric value of `ev.timestamp ?? ev.utime ?? ev.time` in seconds
(`none` when absent or not finite). -/
structure UpstreamEvent where
  event_id : Option String
  lt : Option Int
  ts : Option Int
  actions : List (Option TonTransferPayload)
  deriving Repr, DecidableEq

/-- Watermark statistics accumulated by `ingestEvents` and the sync loops
(`min_lt`/`max_lt` are the BigInt strings, `min_ts`/`max_ts` numbers). -/
structure PageStats where
  min_lt : Option Int := none
  max_lt : Option Int := none
  min_ts : Option Int := none
  max_ts : Option Int := none
  deriving Repr, DecidableEq

def transferKeyEq (a b : TransferRow) : Bool :=
  a.wallet == b.wallet && a.event_id == b.event_id && a.action_index == b.action_index

/-- stmtTransferInsert: INSERT OR IGNORE on the composite primary key. -/
def stmtTransferInsert (cache : List TransferRow) (r : TransferRow) :
    List TransferRow :=
  if cache.any (fun c => transferKeyEq c r) then cache else cache ++ [r]

/-- Fallback event id used when the event carries none:
`${ltVal ?? "ev"}_${i}` (the `??` is nullish, so an lt of 0 is kept). -/
def fallbackEventId (lt : Option Int) (i : Nat) : String :=
  (match lt with | some n => toString n | none => "ev") ++ "_" ++ toString i

/-- The transfer row `ingestEvents` builds for action index `i` of an event,
when the action is a TonTransfer addressed to the tracked wallet. -/
def actionRow (wallet : String) (nowIso : Int) (ev : UpstreamEvent) (i : Nat)
    (t : TonTransferPayload) : TransferRow :=
  { wallet := wallet
    event_id := ev.event_id.getD (fallbackEventId ev.lt i)
    action_index := i
    lt := match ev.lt with | some n => if n != 0 then some n else none | none => none
    timestamp := eventTimeMs ev.ts
    sender := t.sender
    recipient := t.recipient
    amount_nano := t.amount
    comment := t.comment.getD ""
    comment_tag := commentTag (t.comment.getD "")
    inserted_at := nowIso }

/-- The rows one event contributes to the cache: its TonTransfer actions whose
recipient is the tracked wallet. -/
def eventRows (wallet : String) (nowIso : Int) (ev : UpstreamEvent) :
    List TransferRow :=
  ev.actions.enum.filterMap fun p =>
    match p.2 with
    | none => none
    | some t =>
      if sameAddress t.recipient (some wallet) then
        some (actionRow wallet nowIso ev p.1 t)
      else none

/-- Per-event watermark-statistics update of `ingestEvents` (plain
`Math.min`/`Math.max` and `minBigInt`/`maxBigInt`, null-absorbing). -/
def ingestStatsStep (st : PageStats) (ev : UpstreamEvent) : PageStats :=
  let tsMs := eventTimeMs ev.ts
  let st1 := match tsMs with
    | some t =>
      { st with
        min_ts := some (match st.min_ts with | some m => min m t | none => t)
        max_ts := some (match st.max_ts with | some m => max m t | none => t) }
    | none => st
  match ev.lt with
  | some l =>
    { st1 with
      min_lt := some (match st1.min_lt with | some m => min m l | none => l)
      max_lt := some (match st1.max_lt with | some m => max m l | none => l) }
  | none => st1

/-- ingestEvents: walks the events, accumulating watermark statistics and
idempotently inserting each qualifying TonTransfer action addressed to the
wallet; returns the new cache and the page statistics. -/
def ingestEvents (cache : List TransferRow) (wallet : String)
    (events : List UpstreamEvent) (nowIso : Int) :
    List TransferRow × PageStats :=
  events.foldl
    (fun acc ev =>
      ((eventRows wallet nowIso ev).foldl stmtTransferInsert acc.1,
       ingestStatsStep acc.2 ev))
    (cache, {})

-- Idempotence of ingestion ---------------------------------------------------

/-- All rows a list of events contributes, in processing order. -/
def rowsOfEvents (wallet : String) (nowIso : Int) :
    List UpstreamEvent → List TransferRow
  | [] => []
  | ev :: evs => eventRows wallet nowIso ev ++ rowsOfEvents wallet nowIso evs

def keyMem (cache : List TransferRow) (r : TransferRow) : Bool :=
  cache.any (fun c => transferKeyEq c r)

lemma ingestEvents_fst (wallet : String) (nowIso : Int) :
    ∀ (events : List UpstreamEvent) (cache : List TransferRow) (st : PageStats),
      (events.foldl
        (fun acc ev =>
          ((eventRows wallet nowIso ev).foldl stmtTransferInsert acc.1,
           ingestStatsStep acc.2 ev)) (cache, st)).1
      = (rowsOfEvents wallet nowIso events).foldl stmtTransferInsert cache := by
  intro events
  induction events with
  | nil => intro cache st; rfl
  | cons ev evs ih =>
    intro cache st
    simp only [List.foldl_cons, rowsOfEvents, List.foldl_append]
    exact ih _ _

lemma keyMem_insert_mono {cache : List TransferRow} {r x : TransferRow}
    (h : keyMem cache r = true) : keyMem (stmtTransferInsert cache x) r = true := by
  unfold stmtTransferInsert
  by_cases hx : cache.any (fun c => transferKeyEq c x) = true
  · rw [if_pos hx]; exact h
  · rw [if_neg hx]
    unfold keyMem at h ⊢
    rw [List.any_append, h]
    rfl

lemma keyMem_insertAll_mono : ∀ (rs : List TransferRow)
    (cache : List TransferRow) (r : TransferRow), keyMem cache r = true →
    keyMem (rs.foldl stmtTransferInsert cache) r = true := by
  intro rs
  induction rs with
  | nil => intro cache r h; exact h
  | cons x xs ih =>
    intro cache r h
    exact ih _ _ (keyMem_insert_mono h)

lemma transferKeyEq_refl (x : TransferRow) : transferKeyEq x x = true := by
  simp [transferKeyEq]

lemma keyMem_insert_self (cache : List TransferRow) (x : TransferRow) :
    keyMem (stmtTransferInsert cache x) x = true := by
  unfold stmtTransferInsert
  by_cases hx : cache.any (fun c => transferKeyEq c x) = true
  · rw [if_pos hx]; exact hx
  · rw [if_neg hx]
    unfold keyMem
    rw [List.any_append]
    simp [transferKeyEq_refl]

lemma insertAll_keys_present : ∀ (rs : List TransferRow)
    (cache : List TransferRow), ∀ r ∈ rs,
    keyMem (rs.foldl stmtTransferInsert cache) r = true := by
  intro rs
  induction rs with
  | nil => intro cache r h; simp at h
  | cons x xs ih =>
    intro cache r h
    rcases List.mem_cons.mp h with rfl | h'
    · exact keyMem_insertAll_mono xs _ r (keyMem_insert_self cache r)
    · exact ih _ r h'

lemma insertAll_of_keys_present : ∀ (rs : List TransferRow)
    (cache : List TransferRow), (∀ r ∈ rs, keyMem cache r = true) →
    rs.foldl stmtTransferInsert cache = cache := by
  intro rs
  induction rs with
  | nil => intro cache _; rfl
  | cons x xs ih =>
    intro cache h
    have hx : stmtTransferInsert cache x = cache := by
      have hm := h x (by simp)
      unfold keyMem at hm
      unfold stmtTransferInsert
      rw [if_pos hm]
    rw [List.foldl_cons, hx]
    exact ih cache (fun r hr => h r (by simp [hr]))

lemma eventRows_inserted_at (wallet : String) (t t' : Int) (ev : UpstreamEvent) :
    eventRows wallet t' ev =
      (eventRows wallet t ev).map (fun r => { r with inserted_at := t' }) := by
  unfold eventRows
  rw [List.map_filterMap]
  congr 1
  funext p
  rcases p with ⟨i, a⟩
  cases a with
  | none => rfl
  | some tp =>
    by_cases h : sameAddress tp.recipient (some wallet) = true
    · simp only [h, if_true, Option.map_some]
      rfl
    · simp only [Bool.not_eq_true] at h
      simp only [h, Bool.false_eq_true, if_false]
      rfl

lemma rowsOfEvents_inserted_at (wallet : String) (t t' : Int) :
    ∀ (events : List UpstreamEvent),
      rowsOfEvents wallet t' events =
        (rowsOfEvents wallet t events).map (fun r => { r with inserted_at := t' }) := by
  intro events
  induction events with
  | nil => rfl
  | cons ev evs ih =>
    simp only [rowsOfEvents, List.map_append, ih]
    rw [eventRows_inserted_at wallet t t' ev]

/-- Uniqueness of the composite primary key across the cache. -/
def uniqueKeys (cache : List TransferRow) : Prop :=
  cache.Pairwise (fun a b => transferKeyEq a b = false)

lemma uniqueKeys_insert {cache : List TransferRow} {x : TransferRow}
    (h : uniqueKeys cache) : uniqueKeys (stmtTransferInsert cache x) := by
  unfold stmtTransferInsert
  by_cases hx : cache.any (fun c => transferKeyEq c x) = true
  · rw [if_pos hx]; exact h
  · rw [if_neg hx]
    unfold uniqueKeys
    rw [List.pairwise_append]
    refine ⟨h, by simp, ?_⟩
    intro a ha b hb
    rcases List.mem_singleton.mp hb
    have := List.any_eq_false.mp (Bool.eq_false_iff.mpr hx) a ha
    simpa using this

lemma uniqueKeys_insertAll : ∀ (rs : List TransferRow)
    (cache : List TransferRow), uniqueKeys cache →
    uniqueKeys (rs.foldl stmtTransferInsert cache) := by
  intro rs
  induction rs with
  | nil => intro cache h; exact h
  | cons x xs ih => intro cache h; exact ih _ (uniqueKeys_insert h)

lemma ingestEvents_cacheEq (cache : List TransferRow) (wallet : String)
    (events : List UpstreamEvent) (nowIso : Int) :
    (ingestEvents cache wallet events nowIso).1
      = (rowsOfEvents wallet nowIso events).foldl stmtTransferInsert cache := by
  unfold ingestEvents
  exact ingestEvents_fst wallet nowIso events cache {}

/-- C8: ingestion is idempotent — running `ingestEvents` a second time over
the same events (even with a different `inserted_at` clock value) leaves the
cache exactly as after the first run, and each (wallet, event_id,
action_index) key occupies at most one row (key uniqueness is preserved). -/
theorem ingestEvents_idempotent (cache : List TransferRow) (wallet : String)
    (events : List UpstreamEvent) (now1 now2 : Int) :
    (ingestEvents (ingestEvents cache wallet events now1).1 wallet events now2).1
      = (ingestEvents cache wallet events now1).1 ∧
    (uniqueKeys cache → uniqueKeys (ingestEvents cache wallet events now1).1) := by
  constructor
  · rw [ingestEvents_cacheEq, ingestEvents_cacheEq]
    apply insertAll_of_keys_present
    intro r hr
    rw [rowsOfEvents_inserted_at wallet now1 now2 events] at hr
    rcases List.mem_map.mp hr with ⟨r0, hr0, rfl⟩
    exact insertAll_keys_present (rowsOfEvents wallet now1 events) cache r0 hr0
  · intro h
    rw [ingestEvents_cacheEq]
    exact uniqueKeys_insertAll _ _ h

/-- Witness for C8: ingesting a concrete two-action event twice yields the
same single matching cache row as ingesting it once, with unique keys. -/
theorem ingestEvents_idempotent_witness :
    (ingestEvents
        (ingestEvents [] "w"
          [⟨some "e1", some 3, some 9,
            [some ⟨some "w", some "s", some 100, some "INV#z"⟩,
             some ⟨some "other", some "s", some 50, none⟩]⟩] 0).1
        "w"
        [⟨some "e1", some 3, some 9,
          [some ⟨some "w", some "s", some 100, some "INV#z"⟩,
           some ⟨some "other", some "s", some 50, none⟩]⟩] 5).1
      = (ingestEvents [] "w"
          [⟨some "e1", some 3, some 9,
            [some ⟨some "w", some "s", some 100, some "INV#z"⟩,
             some ⟨some "other", some "s", some 50, none⟩]⟩] 0).1 ∧
    uniqueKeys (ingestEvents [] "w"
        [⟨some "e1", some 3, some 9,
          [some ⟨some "w", some "s", some 100, some "INV#z"⟩,
           some ⟨some "other", some "s", some 50, none⟩]⟩] 0).1 :=
  ⟨(ingestEvents_idempotent [] "w"
      [⟨some "e1", some 3, some 9,
        [some ⟨some "w", some "s", some 100, some "INV#z"⟩,
         some ⟨some "other", some "s", some 50, none⟩]⟩] 0 5).1,
   (ingestEvents_idempotent [] "w"
      [⟨some "e1", some 3, some 9,
        [some ⟨some "w", some "s", some 100, some "INV#z"⟩,
         some ⟨some "other", some "s", some 50, none⟩]⟩] 0 5).2
     (by simp [uniqueKeys])⟩

-- Database state -------------------------------------------------------------

/-- Row of `inv_wallet_sync`.  `last_sync_at` is always written from
`Date.now()` by `updateWalletSync`, hence modelled as a plain Int. -/
structure SyncRow where
  wallet : String
  last_sync_at : Int
  max_lt : Option Int
  min_lt : Option Int
  max_ts : Option Int
  min_ts : Option Int
  deriving Repr, DecidableEq

/-- Row of `inv_agents`. -/
structure AgentRow where
  agent_id : String
  wallet_address : Option String
  status : String
  challenge_tag : Option String
  challenge_amount_ton : Option String
  challenge_amount_nano : Option Int
  challenge_created_at : Option Int
  challenge_expires_at : Option Int
  verified_at : Option Int
  proof_event_id : Option String
  proof_sender_wallet : Option String
  updated_at : Option Int
  deriving Repr, DecidableEq

/-- Row of `inv_invoices`.  `created_at`, `amount_ton`, `amount_nano`,
`recipient_wallet` and `comment` are NOT NULL and always written by
`inv_create`. -/
structure InvoiceRow where
  invoice_id : String
  created_at : Int
  expires_at : Option Int
  amount_ton : String
  amount_nano : Int
  recipient_wallet : String
  expected_sender_wallet : Option String
  payer_agent : Option String
  payer_agent_verified : Option Int
  description : Option String
  comment : String
  status : String
  strict_sender : Option Int
  paid_at : Option Int
  tx_event_id : Option String
  tx_sender_wallet : Option String
  tx_amount_nano : Option Int
  tx_amount_ton : Option String
  last_checked_at : Option Int
  deriving Repr, DecidableEq

/-- The SQLite database owned by the plugin. -/
structure Db where
  agents : List AgentRow
  invoices : List InvoiceRow
  rate_limits : List RateRow
  wallet_sync : List SyncRow
  transfers : List TransferRow
  deriving Repr, DecidableEq

def stmtWalletSyncGet (rows : List SyncRow) (w : String) : Option SyncRow :=
  rows.find? (fun r => r.wallet == w)

/-- INSERT ... ON CONFLICT(wallet) DO UPDATE of every column. -/
def stmtWalletSyncUpsert (rows : List SyncRow) (row : SyncRow) : List SyncRow :=
  if rows.any (fun r => r.wallet == row.wallet) then
    rows.map (fun r => if r.wallet == row.wallet then row else r)
  else rows ++ [row]

def getWalletSync (db : Db) (w : String) : Option SyncRow :=
  stmtWalletSyncGet db.wallet_sync w

/-- updateWalletSync: reads the current watermark row and then OVERWRITES
each field with this sync's statistics whenever the latter is truthy (strings
by non-null, numbers by non-zero), keeping the stored value only when the new
statistic is falsy. -/
def updateWalletSync (db : Db) (wallet : String) (now : Int)
    (stats : PageStats) : Db :=
  let current := getWalletSync db wallet
  let maxLt := if stats.max_lt.isSome then stats.max_lt
               else current.bind (fun c => c.max_lt)
  let minLt := if stats.min_lt.isSome then stats.min_lt
               else current.bind (fun c => c.min_lt)
  let maxTs := if numTruthy stats.max_ts then stats.max_ts
               else current.bind (fun c => c.max_ts)
  let minTs := if numTruthy stats.min_ts then stats.min_ts
               else current.bind (fun c => c.min_ts)
  { db with wallet_sync :=
      stmtWalletSyncUpsert db.wallet_sync ⟨wallet, now, maxLt, minLt, maxTs, minTs⟩ }

-- Upstream fetch and sync engines --------------------------------------------

structure ApiError where
  status : Option Nat
  msg : String
  deriving Repr, DecidableEq

structure FetchParams where
  wallet : String
  limit : Nat
  sort_order : String
  after_lt : Option Int := none
  before_lt : Option Int := none
  start_date : Option Int := none
  end_date : Option Int := none
  deriving Repr, DecidableEq

def retryableStatus (s : Option Nat) : Bool :=
  s == some 429 || s == some 500 || s == some 502 || s == some 503 ||
  s == some 504 || s == some 522 || s == none

/-- tonapiFetchWithRetry: attempts the attempt-indexed upstream call,
retrying on retryable statuses while attempts remain; returns the last error
otherwise.  The first argument of the recursion is the attempt index, the
second the remaining attempts (initially `maxAttempts`; the program always
passes 3).  The 0-remaining case models the unreachable `throw lastErr` with
a null error. -/
def tonapiFetchWithRetry
    (attempts : Nat → Except ApiError (List UpstreamEvent)) :
    Nat → Nat → Except ApiError (List UpstreamEvent)
  | _, 0 => .error ⟨none, "null"⟩
  | idx, r + 1 =>
    match attempts idx with
    | .ok v => .ok v
    | .error e =>
      if retryableStatus e.status && r != 0 then
        tonapiFetchWithRetry attempts (idx + 1) r
      else .error e

lemma tonapiFetchWithRetry_exhausted (e : ApiError)
    (attempts : Nat → Except ApiError (List UpstreamEvent))
    (h : ∀ i, attempts i = .error e) :
    ∀ (r : Nat), 1 ≤ r → ∀ (idx : Nat),
      tonapiFetchWithRetry attempts idx r = .error e := by
  intro r
  induction r with
  | zero => intro h1; omega
  | succ n ih =>
    intro _ idx
    have hstep : tonapiFetchWithRetry attempts idx (n + 1) =
        (if retryableStatus e.status && n != 0 then
          tonapiFetchWithRetry attempts (idx + 1) n
        else .error e) := by
      conv_lhs => unfold tonapiFetchWithRetry
      rw [h idx]
    rw [hstep]
    by_cases hr : (retryableStatus e.status && n != 0) = true
    · rw [if_pos hr]
      have hn : n ≠ 0 := by
        intro h0
        rw [h0] at hr
        simp at hr
      exact ih (by omega) (idx + 1)
    · rw [if_neg hr]

/-- Result of one sync loop: the error that aborted it (if any), the number
of events seen, the accumulated page statistics and the grown cache. -/
structure LoopOut where
  err : Option ApiError
  anyEvents : Nat
  stats : PageStats
  cache : List TransferRow
  deriving Repr, DecidableEq

/-- Cross-page merge of the max-lt statistic (`if (pageStats.max_lt)` guard,
string truthiness on the accumulator). -/
def mergeMaxLt (s p : Option Int) : Option Int :=
  match p with
  | none => s
  | some b => match s with
    | some a => some (max a b)
    | none => some b

def mergeMinLt (s p : Option Int) : Option Int :=
  match p with
  | none => s
  | some b => match s with
    | some a => some (min a b)
    | none => some b

/-- Cross-page merge of the max-ts statistic (explicit null check on the page
value, numeric truthiness — zero falsy — on the accumulator). -/
def mergeMaxTs (s p : Option Int) : Option Int :=
  match p with
  | none => s
  | some b => match s with
    | some a => if a != 0 then some (max a b) else some b
    | none => some b

def mergeMinTs (s p : Option Int) : Option Int :=
  match p with
  | none => s
  | some b => match s with
    | some a => if a != 0 then some (min a b) else some b
    | none => some b

def accumStats (st ps : PageStats) : PageStats :=
  { max_lt := mergeMaxLt st.max_lt ps.max_lt
    min_lt := mergeMinLt st.min_lt ps.min_lt
    max_ts := mergeMaxTs st.max_ts ps.max_ts
    min_ts := mergeMinTs st.min_ts ps.min_ts }

/-- Page loop of `syncNewEvents` (fuel = remaining pages, max 3). -/
def syncNewLoop (fetch : FetchParams → Except ApiError (List UpstreamEvent))
    (wallet : String) (startMs endMs : Option Int) (nowIso : Int) :
    Nat → Option Int → PageStats → Nat → List TransferRow → LoopOut
  | 0, _, stats, anyE, cache => ⟨none, anyE, stats, cache⟩
  | fuel + 1, afterLt, stats, anyE, cache =>
    let params : FetchParams :=
      { wallet := wallet, limit := 50
        sort_order := if afterLt.isSome then "asc" else "desc"
        after_lt := afterLt
        start_date := if numTruthy startMs then some ((startMs.getD 0).fdiv 1000)
                      else none
        end_date := if numTruthy endMs then some ((endMs.getD 0).fdiv 1000)
                    else none }
    match fetch params with
    | .error e => ⟨some e, anyE, stats, cache⟩
    | .ok events =>
      if events.length = 0 then ⟨none, anyE, stats, cache⟩
      else
        let res := ingestEvents cache wallet events nowIso
        let afterLt' := if res.2.max_lt.isSome then res.2.max_lt else afterLt
        let stats' := accumStats stats res.2
        let anyE' := anyE + events.length
        if !afterLt'.isSome then ⟨none, anyE', stats', res.1⟩
        else if events.length < 50 then ⟨none, anyE', stats', res.1⟩
        else syncNewLoop fetch wallet startMs endMs nowIso fuel afterLt' stats' anyE' res.1

/-- syncNewEvents: forward sync from the wallet's high watermark. -/
def syncNewEvents (db : Db)
    (fetch : FetchParams → Except ApiError (List UpstreamEvent))
    (now : Int) (wallet : String) (startMs endMs : Option Int) :
    Except ApiError Nat × Db :=
  let sync := getWalletSync db wallet
  let afterLt := sync.bind (fun s => s.max_lt)
  let out := syncNewLoop fetch wallet startMs endMs now 3 afterLt {} 0 db.transfers
  let db1 := { db with transfers := out.cache }
  match out.err with
  | some e => (.error e, db1)
  | none =>
    if 0 < out.anyEvents then (.ok out.anyEvents, updateWalletSync db1 wallet now out.stats)
    else (.ok out.anyEvents, db1)

/-- Page loop of `syncOlderEvents` (fuel = remaining pages, max 6). -/
def syncOldLoop (fetch : FetchParams → Except ApiError (List UpstreamEvent))
    (wallet : String) (startMs endMs : Option Int) (nowIso : Int) :
    Nat → Option Int → PageStats → Nat → List TransferRow → LoopOut
  | 0, _, stats, anyE, cache => ⟨none, anyE, stats, cache⟩
  | fuel + 1, beforeLt, stats, anyE, cache =>
    let params : FetchParams :=
      { wallet := wallet, limit := 50, sort_order := "desc"
        before_lt := beforeLt
        start_date := if numTruthy startMs then some ((startMs.getD 0).fdiv 1000)
                      else none
        end_date := if numTruthy endMs then some ((endMs.getD 0).fdiv 1000)
                    else none }
    match fetch params with
    | .error e => ⟨some e, anyE, stats, cache⟩
    | .ok events =>
      if events.length = 0 then ⟨none, anyE, stats, cache⟩
      else
        let res := ingestEvents cache wallet events nowIso
        let beforeLt' := if res.2.min_lt.isSome then res.2.min_lt else beforeLt
        let stats' := accumStats stats res.2
        let anyE' := anyE + events.length
        if numTruthy res.2.min_ts && numTruthy startMs &&
            decide (res.2.min_ts.getD 0 ≤ startMs.getD 0) then
          ⟨none, anyE', stats', res.1⟩
        else if events.length < 50 then ⟨none, anyE', stats', res.1⟩
        else if !beforeLt'.isSome then ⟨none, anyE', stats', res.1⟩
        else syncOldLoop fetch wallet startMs endMs nowIso fuel beforeLt' stats' anyE' res.1

/-- syncOlderEvents: backward backfill from the wallet's low watermark;
returns immediately when no low watermark exists. -/
def syncOlderEvents (db : Db)
    (fetch : FetchParams → Except ApiError (List UpstreamEvent))
    (now : Int) (wallet : String) (startMs endMs : Option Int) :
    Except ApiError Nat × Db :=
  let sync := getWalletSync db wallet
  let beforeLt := sync.bind (fun s => s.min_lt)
  if !beforeLt.isSome then (.ok 0, db)
  else
    let out := syncOldLoop fetch wallet startMs endMs now 6 beforeLt {} 0 db.transfers
    let db1 := { db with transfers := out.cache }
    match out.err with
    | some e => (.error e, db1)
    | none =>
      if 0 < out.anyEvents then (.ok out.anyEvents, updateWalletSync db1 wallet now out.stats)
      else (.ok out.anyEvents, db1)

-- Matcher --------------------------------------------------------------------

/-- Criteria handed to `findTransferWithSync`. -/
structure Criteria where
  tag : Option String
  minAmountNano : Int
  expectedSender : Option String
  strictSender : Bool
  startMs : Option Int
  endMs : Option Int
  deriving Repr, DecidableEq

/-- findTransferWithSync: cache-first matcher.  On a cache miss it
short-circuits to "throttled" inside the per-wallet minimum sync interval,
otherwise runs forward sync, re-queries, optionally runs backward sync when
the low watermark does not already predate the window start, re-queries, and
returns the match with its discovery source or "not_found".  An upstream
error thrown by a sync aborts the matcher (it is NOT caught here). -/
def findTransferWithSync (db : Db)
    (fetch : FetchParams → Except ApiError (List UpstreamEvent))
    (now : Int) (wallet : String) (crit : Criteria) :
    Except ApiError (Option TransferRow × String) × Db :=
  match queryCachedTransfer db.transfers wallet crit.tag crit.startMs crit.endMs
      crit.minAmountNano crit.expectedSender crit.strictSender with
  | some r => (.ok (some r, "cache"), db)
  | none =>
    let sync := getWalletSync db wallet
    if (match sync with
        | some s => s.last_sync_at != 0 && decide (now - s.last_sync_at < 3000)
        | none => false) then
      (.ok (none, "throttled"), db)
    else
      let resNew := syncNewEvents db fetch now wallet crit.startMs crit.endMs
      let db1 := resNew.2
      match resNew.1 with
      | .error e => (.error e, db1)
      | .ok _ =>
        match queryCachedTransfer db1.transfers wallet crit.tag crit.startMs
            crit.endMs crit.minAmountNano crit.expectedSender crit.strictSender with
        | some r => (.ok (some r, "sync_new"), db1)
        | none =>
          let minTs := (getWalletSync db1 wallet).bind (fun s => s.min_ts)
          let shouldOlder :=
            !(numTruthy minTs) ||
            (numTruthy crit.startMs && decide (crit.startMs.getD 0 < minTs.getD 0))
          if shouldOlder then
            let resOld := syncOlderEvents db1 fetch now wallet crit.startMs crit.endMs
            let db2 := resOld.2
            match resOld.1 with
            | .error e => (.error e, db2)
            | .ok _ =>
              match queryCachedTransfer db2.transfers wallet crit.tag crit.startMs
                  crit.endMs crit.minAmountNano crit.expectedSender crit.strictSender with
              | some r => (.ok (some r, "sync_old"), db2)
              | none => (.ok (none, "not_found"), db2)
          else
            match queryCachedTransfer db1.transfers wallet crit.tag crit.startMs
                crit.endMs crit.minAmountNano crit.expectedSender crit.strictSender with
            | some r => (.ok (some r, "sync_old"), db1)
            | none => (.ok (none, "not_found"), db1)

-- Frame lemmas: syncs touch only transfers and wallet_sync -------------------

lemma syncNewEvents_shape (db : Db)
    (fetch : FetchParams → Except ApiError (List UpstreamEvent))
    (now : Int) (wallet : String) (sd ed : Option Int) :
    ∃ tr ws, (syncNewEvents db fetch now wallet sd ed).2 =
      { db with transfers := tr, wallet_sync := ws } := by
  simp only [syncNewEvents]
  split
  · exact ⟨_, db.wallet_sync, rfl⟩
  · split
    · exact ⟨_, _, rfl⟩
    · exact ⟨_, db.wallet_sync, rfl⟩

lemma syncOlderEvents_shape (db : Db)
    (fetch : FetchParams → Except ApiError (List UpstreamEvent))
    (now : Int) (wallet : String) (sd ed : Option Int) :
    ∃ tr ws, (syncOlderEvents db fetch now wallet sd ed).2 =
      { db with transfers := tr, wallet_sync := ws } := by
  simp only [syncOlderEvents]
  split
  · exact ⟨db.transfers, db.wallet_sync, rfl⟩
  · split
    · exact ⟨_, db.wallet_sync, rfl⟩
    · split
      · exact ⟨_, _, rfl⟩
      · exact ⟨_, db.wallet_sync, rfl⟩

lemma findTransferWithSync_shape (db : Db)
    (fetch : FetchParams → Except ApiError (List UpstreamEvent))
    (now : Int) (wallet : String) (crit : Criteria) :
    ∃ tr ws, (findTransferWithSync db fetch now wallet crit).2 =
      { db with transfers := tr, wallet_sync := ws } := by
  simp only [findTransferWithSync]
  split
  · exact ⟨db.transfers, db.wallet_sync, rfl⟩
  · split
    · exact ⟨db.transfers, db.wallet_sync, rfl⟩
    · obtain ⟨t1, w1, h1⟩ :=
        syncNewEvents_shape db fetch now wallet crit.startMs crit.endMs
      split
      · exact ⟨t1, w1, h1⟩
      · split
        · exact ⟨t1, w1, h1⟩
        · split
          · obtain ⟨t2, w2, h2⟩ := syncOlderEvents_shape
              ((syncNewEvents db fetch now wallet crit.startMs crit.endMs).2)
              fetch now wallet crit.startMs crit.endMs
            split
            · exact ⟨t2, w2, by rw [h2, h1]⟩
            · split
              · exact ⟨t2, w2, by rw [h2, h1]⟩
              · exact ⟨t2, w2, by rw [h2, h1]⟩
          · split
            · exact ⟨t1, w1, h1⟩
            · exact ⟨t1, w1, h1⟩

-- Tool layer -----------------------------------------------------------------

def strTruthy : Option String → Bool
  | some s => s != ""
  | none => false

/-- formatTon: nano-to-TON decimal string (`BigInt` division; the program only
formats nonnegative amounts, where Euclidean and truncating division agree);
`none` models the catch returning null on an unparsable string. -/
def formatTon : Option Int → Option String
  | none => none
  | some n =>
    let ip := n / 1000000000
    let fr := n % 1000000000
    let padded := List.replicate (9 - (toString fr).length) '0' ++ (toString fr).data
    let fracStr := (padded.reverse.dropWhile (fun c => c = '0')).reverse
    if fracStr.isEmpty then some (toString ip)
    else some (toString ip ++ "." ++ String.mk fracStr)

def sanitizeAllowedChar (c : Char) : Bool :=
  c.isAlphanum || c = '_' || c = '@' || c = '.' || c = '-'

lemma length_dropWhile_le_char (p : Char → Bool) :
    ∀ (l : List Char), (l.dropWhile p).length ≤ l.length := by
  intro l
  induction l with
  | nil => simp
  | cons c cs ih =>
    rw [List.dropWhile_cons]
    by_cases h : p c = true
    · simp only [h, if_true]
      exact le_trans ih (Nat.le_succ _)
    · simp [h]

/-- Replacement of every whitespace run by a single underscore
(`replace` of one-or-more whitespace, globally). -/
def collapseWhitespace : List Char → List Char
  | [] => []
  | c :: cs =>
    if c.isWhitespace then
      '_' :: collapseWhitespace (cs.dropWhile Char.isWhitespace)
    else c :: collapseWhitespace cs
termination_by l => l.length
decreasing_by
  · exact Nat.lt_succ_of_le (length_dropWhile_le_char _ _)
  · exact Nat.lt_succ_self _

/-- sanitizeTag: trim, collapse whitespace to underscores, keep only
alphanumerics and the characters `_@.-`, cut to `maxLen`; null for a falsy or
blank value. -/
def sanitizeTag (value : Option String) (maxLen : Nat) : Option String :=
  match value with
  | none => none
  | some v =>
    if v = "" then none
    else
      let raw := v.trim
      if raw = "" then none
      else some (String.mk
        (((collapseWhitespace raw.data).filter sanitizeAllowedChar).take maxLen))

/-- buildInvoiceComment: the tag `INV#` followed by the invoice id, with an
optional `|payer:` suffix carrying the sanitized payer tag. -/
def buildInvoiceComment (invoiceId : String) (payerAgent : Option String) :
    String :=
  let tag := "INV#" ++ invoiceId
  match sanitizeTag payerAgent 32 with
  | some p => tag ++ "|payer:" ++ p
  | none => tag

-- Prepared statements over agents and invoices -------------------------------

def stmtAgentGet (agents : List AgentRow) (id : String) : Option AgentRow :=
  agents.find? (fun a => a.agent_id == id)

/-- INSERT ... ON CONFLICT(agent_id) DO UPDATE of every column: whole-row
replace keyed on agent_id. -/
def stmtAgentUpsert (agents : List AgentRow) (row : AgentRow) : List AgentRow :=
  if agents.any (fun a => a.agent_id == row.agent_id) then
    agents.map (fun a => if a.agent_id == row.agent_id then row else a)
  else agents ++ [row]

def stmtAgentVerify (agents : List AgentRow) (verifiedAt : Int)
    (proofEventId proofSender : Option String) (updatedAt : Int) (id : String) :
    List AgentRow :=
  agents.map (fun a =>
    if a.agent_id == id then
      { a with
        status := "verified"
        verified_at := some verifiedAt
        proof_event_id := proofEventId
        proof_sender_wallet := proofSender
        updated_at := some updatedAt }
    else a)

def stmtInvoiceGet (invoices : List InvoiceRow) (id : String) :
    Option InvoiceRow :=
  invoices.find? (fun i => i.invoice_id == id)

def stmtInvoiceUpdateStatus (invoices : List InvoiceRow) (status id : String) :
    List InvoiceRow :=
  invoices.map (fun i =>
    if i.invoice_id == id then { i with status := status } else i)

def stmtInvoiceUpdateLastCheck (invoices : List InvoiceRow) (ts : Int)
    (id : String) : List InvoiceRow :=
  invoices.map (fun i =>
    if i.invoice_id == id then { i with last_checked_at := some ts } else i)

def stmtInvoiceMarkPaid (invoices : List InvoiceRow) (paidAt : Int)
    (txEventId : String) (txSender : Option String) (txAmountNano : Option Int)
    (txAmountTon : Option String) (id : String) : List InvoiceRow :=
  invoices.map (fun i =>
    if i.invoice_id == id then
      { i with
        status := "paid"
        paid_at := some paidAt
        tx_event_id := some txEventId
        tx_sender_wallet := txSender
        tx_amount_nano := txAmountNano
        tx_amount_ton := txAmountTon }
    else i)

-- Tool results ----------------------------------------------------------------

/-- The response fields the verified claims inspect (link fields and echoes of
request parameters are left out). -/
structure ToolData where
  status : String
  wallet_address : Option String := none
  challenge_tag : Option String := none
  challenge_expires_at : Option Int := none
  expires_at : Option Int := none
  verified_at : Option Int := none
  proof_event_id : Option String := none
  proof_sender_wallet : Option String := none
  paid_at : Option Int := none
  tx_event_id : Option String := none
  tx_sender_wallet : Option String := none
  tx_amount_ton : Option String := none
  identity_level : Option String := none
  cache_source : Option String := none
  deriving Repr, DecidableEq

/-- A tool outcome: `ok` is a `success: true` payload, `err` the
`success: false` result produced by the tool-boundary catch or an explicit
early return. -/
inductive ToolResult where
  | ok (data : ToolData)
  | err (msg : String)
  deriving Repr, DecidableEq

/-- JS truthiness of a parsed ISO expiry combined with the strict comparison
of `Date.now()` against it: a set expiry that parses to a non-zero time
strictly in the past. -/
def expiredNow (expiresAt : Option Int) (now : Int) : Bool :=
  match expiresAt with
  | some e => e != 0 && decide (e < now)
  | none => false

-- Tool cores ------------------------------------------------------------------

/-- inv_begin_verification (and its alias inv_register_agent), after the
access and rate-limit gates (which never touch the agents table).
`challengeTag` stands for `buildVerificationTag(agent_id)`, whose random
suffix is an oracle; `amountTon`/`amountNano` are the validated outputs of
`toNanoString`; `agentWallet` is the wallet file's address; `agentId` and
`wallet` arrive trimmed. -/
def invBeginCore (db : Db) (now : Int) (agentId wallet : String)
    (amountTon : String) (amountNano : Int) (ttlMin : Int)
    (challengeTag : String) (agentWallet : String) : ToolResult × Db :=
  if agentId = "" then (.err "agent_id is required", db)
  else if wallet = "" then (.err "wallet_address is required", db)
  else if 64 < agentId.length then (.err "agent_id is too long (max 64)", db)
  else
    let expiresAt := now + ttlMin * 60000
    let row : AgentRow :=
      { agent_id := agentId
        wallet_address := some wallet
        status := "pending"
        challenge_tag := some challengeTag
        challenge_amount_ton := some amountTon
        challenge_amount_nano := some amountNano
        challenge_created_at := some now
        challenge_expires_at := some expiresAt
        verified_at := none
        proof_event_id := none
        proof_sender_wallet := none
        updated_at := some now }
    (.ok { status := "pending"
           challenge_tag := some challengeTag
           expires_at := some expiresAt
           wallet_address := some wallet },
     { db with agents := stmtAgentUpsert db.agents row })

/-- inv_confirm_verification, after the access and rate-limit gates.
`agentWallet` models the normalized wallet-file address; `fetch` is the
retried upstream page oracle; `agentId` arrives trimmed. -/
def invConfirmCore (db : Db)
    (fetch : FetchParams → Except ApiError (List UpstreamEvent))
    (now : Int) (agentId : String) (agentWallet : String) : ToolResult × Db :=
  if agentId = "" then (.err "agent_id is required", db)
  else
    match stmtAgentGet db.agents agentId with
    | none => (.err ("agent_id " ++ agentId ++ " not found"), db)
    | some agent =>
      if agent.status = "verified" then
        (.ok { status := agent.status
               wallet_address := agent.wallet_address
               verified_at := agent.verified_at
               proof_event_id := agent.proof_event_id }, db)
      else if expiredNow agent.challenge_expires_at now then
        (.ok { status := "expired"
               challenge_expires_at := agent.challenge_expires_at }, db)
      else
        let crit : Criteria :=
          { tag := agent.challenge_tag
            minAmountNano := agent.challenge_amount_nano.getD 0
            expectedSender := agent.wallet_address
            strictSender := true
            startMs := agent.challenge_created_at
            endMs := some (agent.challenge_expires_at.getD now) }
        let res := findTransferWithSync db fetch now agentWallet crit
        match res.1 with
        | .error e => (.err e.msg, res.2)
        | .ok (matched, source) =>
          match matched with
          | none =>
            (.ok { status := if source = "throttled" then "throttled" else "pending"
                   wallet_address := agent.wallet_address
                   challenge_tag := agent.challenge_tag }, res.2)
          | some r =>
            let verifiedAt :=
              if numTruthy r.timestamp then r.timestamp.getD 0 * 1000 else now
            (.ok { status := "verified"
                   wallet_address := agent.wallet_address
                   verified_at := some verifiedAt
                   proof_event_id := some r.event_id
                   proof_sender_wallet := r.sender },
             { res.2 with
               agents := stmtAgentVerify res.2.agents verifiedAt
                 (some r.event_id) r.sender now agentId })

/-- inv_check, after the access and rate-limit gates (which touch only the
rate_limits table); `invoiceId` arrives trimmed. -/
def invCheckCore (db : Db)
    (fetch : FetchParams → Except ApiError (List UpstreamEvent))
    (now : Int) (invoiceId : String) : ToolResult × Db :=
  if invoiceId = "" then (.err "invoice_id is required", db)
  else
    match stmtInvoiceGet db.invoices invoiceId with
    | none => (.err ("invoice_id " ++ invoiceId ++ " not found"), db)
    | some invoice =>
      if invoice.status = "paid" then
        (.ok { status := invoice.status
               paid_at := invoice.paid_at
               tx_event_id := invoice.tx_event_id
               tx_sender_wallet := invoice.tx_sender_wallet
               tx_amount_ton := invoice.tx_amount_ton }, db)
      else if expiredNow invoice.expires_at now then
        (.ok { status := "expired"
               expires_at := invoice.expires_at },
         { db with
           invoices := stmtInvoiceUpdateStatus db.invoices "expired" invoiceId })
      else
        let strictSender := invoice.strict_sender == some 1
        if strictSender && !(strTruthy invoice.expected_sender_wallet) then
          (.err "invoice is missing expected_sender_wallet", db)
        else
          let crit : Criteria :=
            { tag := some ("INV#" ++ invoiceId)
              minAmountNano := invoice.amount_nano
              expectedSender := invoice.expected_sender_wallet
              strictSender := strictSender
              startMs := some invoice.created_at
              endMs := some (invoice.expires_at.getD now) }
          let res := findTransferWithSync db fetch now invoice.recipient_wallet crit
          match res.1 with
          | .error e => (.err e.msg, res.2)
          | .ok (matched, source) =>
            let db2 := { res.2 with
              invoices := stmtInvoiceUpdateLastCheck res.2.invoices now invoiceId }
            match matched with
            | none =>
              (.ok { status := if source = "throttled" then "throttled" else "not_found"
                     cache_source := some source }, db2)
            | some r =>
              let paidAt :=
                if numTruthy r.timestamp then r.timestamp.getD 0 * 1000 else now
              let paidTon := formatTon r.amount_nano
              let identityLevel :=
                if strTruthy invoice.expected_sender_wallet then
                  (if invoice.payer_agent_verified == some 1 then
                    "wallet_verified" else "wallet")
                else "comment_only"
              (.ok { status := "paid"
                     paid_at := some paidAt
                     tx_event_id := some r.event_id
                     tx_sender_wallet := r.sender
                     tx_amount_ton := paidTon
                     identity_level := some identityLevel
                     cache_source := some source },
               { db2 with
                 invoices :=
                   stmtInvoiceMarkPaid db2.invoices paidAt r.event_id r.sender
                     r.amount_nano paidTon invoiceId })

/-- inv_create, after the access and rate-limit gates.  `amountTon` and
`amountNano` are the validated `toNanoString` outputs; `generatedId` stands
for the random invoice id from `buildInvoiceId()`; `agentWallet` is the
normalized wallet-file address; string options are `none` when the parameter
is falsy, otherwise the trimmed, address-normalized value (for `invoiceIdOpt`
the trim is applied here, as in the source). -/
def invCreateCore (db : Db) (now : Int) (amountTon : String) (amountNano : Int)
    (descriptionOpt payerAgentOpt payerWalletOpt recipientOpt : Option String)
    (expiresMinOpt : Option Int) (invoiceIdOpt : Option String)
    (strictOpt allowUnverifiedOpt : Option Bool)
    (agentWallet generatedId : String) : ToolResult × Db :=
  let recipient := recipientOpt.getD agentWallet
  let allowUnverified := allowUnverifiedOpt.getD false
  let strict0 := strictOpt.getD true
  let resolved : Except String (Option String × Int × Bool) :=
    match payerAgentOpt with
    | none => .ok (payerWalletOpt, 0, strict0)
    | some pa =>
      match stmtAgentGet db.agents pa with
      | some row =>
        if row.status = "verified" && strTruthy row.wallet_address then
          match payerWalletOpt with
          | some w =>
            if !(sameAddress (some w) row.wallet_address) then
              .error "payer_wallet does not match verified agent wallet"
            else .ok (row.wallet_address, 1, strict0)
          | none => .ok (row.wallet_address, 1, strict0)
        else
          match payerWalletOpt with
          | none =>
            if !allowUnverified then
              .error "payer_agent is not verified. Run inv_begin_verification first or set allow_unverified_payer=true."
            else .ok (none, 0, false)
          | some w => .ok (some w, 0, strict0)
      | none =>
        match payerWalletOpt with
        | none =>
          if !allowUnverified then
            .error "payer_agent is not verified. Run inv_begin_verification first or set allow_unverified_payer=true."
          else .ok (none, 0, false)
        | some w => .ok (some w, 0, strict0)
  match resolved with
  | .error msg => (.err msg, db)
  | .ok (expectedSender, payerVerified, strict) =>
    if strict && !(strTruthy expectedSender) then
      (.err "strict_sender requires payer_wallet or verified payer_agent", db)
    else
      let invoiceId := (invoiceIdOpt.map (fun s => s.trim)).getD generatedId
      if invoiceId = "" then (.err "invoice_id is invalid", db)
      else if (stmtInvoiceGet db.invoices invoiceId).isSome then
        (.err ("invoice_id " ++ invoiceId ++ " already exists"), db)
      else
        let expiresAt := match expiresMinOpt with
          | some m => if m != 0 then some (now + m * 60000) else none
          | none => none
        let row : InvoiceRow :=
          { invoice_id := invoiceId
            created_at := now
            expires_at := expiresAt
            amount_ton := amountTon
            amount_nano := amountNano
            recipient_wallet := recipient
            expected_sender_wallet := expectedSender
            payer_agent := payerAgentOpt
            payer_agent_verified := some payerVerified
            description := descriptionOpt
            comment := buildInvoiceComment invoiceId payerAgentOpt
            status := "pending"
            strict_sender := some (if strict then 1 else 0)
            paid_at := none
            tx_event_id := none
            tx_sender_wallet := none
            tx_amount_nano := none
            tx_amount_ton := none
            last_checked_at := none }
        (.ok { status := "pending"
               expires_at := expiresAt
               identity_level := some
                 (if strTruthy expectedSender then
                    (if payerVerified = 1 then "wallet_verified" else "wallet")
                  else if payerAgentOpt.isNone && !strict then "none"
                  else "comment_only") },
         { db with invoices := db.invoices ++ [row] })

/-- inv_receipt, after the access and rate-limit gates: a pure read of a paid
invoice; `invoiceId` arrives trimmed. -/
def invReceiptCore (db : Db) (invoiceId : String) : ToolResult × Db :=
  if invoiceId = "" then (.err "invoice_id is required", db)
  else
    match stmtInvoiceGet db.invoices invoiceId with
    | none => (.err ("invoice_id " ++ invoiceId ++ " not found"), db)
    | some invoice =>
      if invoice.status ≠ "paid" then
        (.err ("invoice_id " ++ invoiceId ++ " is not paid (status: " ++
          invoice.status ++ ")"), db)
      else
        (.ok { status := invoice.status
               paid_at := invoice.paid_at
               tx_event_id := invoice.tx_event_id
               tx_sender_wallet := invoice.tx_sender_wallet
               tx_amount_ton := invoice.tx_amount_ton
               identity_level := some
                 (if strTruthy invoice.expected_sender_wallet then
                    (if invoice.payer_agent_verified == some 1 then
                      "wallet_verified" else "wallet")
                  else "comment_only") }, db)

-- C4: the watermark is overwritten, not merged ---------------------------------

/-- A wallet with an established watermark (max_lt = min_lt = 100). -/
def c4Db : Db :=
  { agents := []
    invoices := []
    rate_limits := []
    wallet_sync := [⟨"w", 1, some 100, some 100, some 100000, some 100000⟩]
    transfers := [] }

/-- Upstream returning one older event (lt 50, time 50 s) for the backfill
page and nothing else. -/
def c4Fetch : FetchParams → Except ApiError (List UpstreamEvent) :=
  fun p => .ok (if p.before_lt == some 100
                then [⟨some "old", some 50, some 50, []⟩] else [])

/-- C4 (code bug): a backward sync SHRINKS the stored watermark.  Before the
sync the wallet's max_lt is 100; `syncOlderEvents` ingests one older event
with lt 50 and `updateWalletSync` then overwrites max_lt with this sync's
page maximum 50 < 100 (min/max are merged across the pages of one sync, but
never with the stored row), contradicting the claimed monotonicity. -/
theorem updateWalletSync_overwrites_watermark :
    stmtWalletSyncGet c4Db.wallet_sync "w" =
      some ⟨"w", 1, some 100, some 100, some 100000, some 100000⟩ ∧
    stmtWalletSyncGet
        (syncOlderEvents c4Db c4Fetch 999 "w" none none).2.wallet_sync "w" =
      some ⟨"w", 999, some 50, some 50, some 50000, some 50000⟩ ∧
    ¬ (100 ≤ (50 : Int)) := by
  refine ⟨rfl, ?_, by decide⟩
  decide

-- C2: begin_verification resets a verified agent --------------------------------

/-- An agent record that has already completed verification. -/
def c2VerifiedAgent : AgentRow :=
  { agent_id := "alice"
    wallet_address := some "w1"
    status := "verified"
    challenge_tag := some "REG#alice#aaaa"
    challenge_amount_ton := some "0.01"
    challenge_amount_nano := some 10000000
    challenge_created_at := some 1000
    challenge_expires_at := some 3601000
    verified_at := some 2000
    proof_event_id := some "ev9"
    proof_sender_wallet := some "w1"
    updated_at := some 2000 }

def c2Db : Db :=
  { agents := [c2VerifiedAgent]
    invoices := []
    rate_limits := []
    wallet_sync := []
    transfers := [] }

/-- C2 counterexample: re-running inv_begin_verification for an agent whose
stored status is 'verified' DOES regress the stored status to 'pending' (the
upsert replaces every column unconditionally, clearing the proof fields). -/
theorem begin_resets_verified_agent :
    c2VerifiedAgent.status = "verified" ∧
    (stmtAgentGet
        (invBeginCore c2Db 5000 "alice" "w2" "0.01" 10000000 60
          "REG#alice#bbbb" "agentW").2.agents "alice").map (fun a => a.status)
      = some "pending" := by
  exact ⟨rfl, by decide⟩

lemma agent_find?_mapSet (row : AgentRow) : ∀ (rs : List AgentRow),
    rs.any (fun r => r.agent_id == row.agent_id) = true →
    (rs.map (fun r => if r.agent_id == row.agent_id then row else r)).find?
      (fun r => r.agent_id == row.agent_id) = some row := by
  intro rs
  induction rs with
  | nil => intro h; simp at h
  | cons a l ih =>
    intro h
    by_cases hk : (a.agent_id == row.agent_id) = true
    · simp [List.map_cons, hk, List.find?]
    · have h' : l.any (fun r => r.agent_id == row.agent_id) = true := by
        simpa [List.any_cons, hk] using h
      simp only [List.map_cons, if_neg hk]
      rw [List.find?_cons_of_neg _ (by simpa using hk)]
      exact ih h'

lemma agent_find?_appendSet (row : AgentRow) : ∀ (rs : List AgentRow),
    rs.any (fun r => r.agent_id == row.agent_id) = false →
    (rs ++ [row]).find? (fun r => r.agent_id == row.agent_id) = some row := by
  intro rs
  induction rs with
  | nil => intro _; simp [List.find?]
  | cons a l ih =>
    intro h
    have hk : (a.agent_id == row.agent_id) = false := by
      rcases List.any_eq_false.mp h a (by simp) with h'
      simpa using h'
    have h' : l.any (fun r => r.agent_id == row.agent_id) = false := by
      rw [List.any_eq_false] at h ⊢
      intro x hx; exact h x (by simp [hx])
    rw [List.cons_append, List.find?_cons_of_neg _ (by simpa using hk)]
    exact ih h'

lemma agentGet_upsert (agents : List AgentRow) (row : AgentRow) :
    stmtAgentGet (stmtAgentUpsert agents row) row.agent_id = some row := by
  unfold stmtAgentUpsert stmtAgentGet
  by_cases h : agents.any (fun a => a.agent_id == row.agent_id) = true
  · rw [if_pos h]; exact agent_find?_mapSet row agents h
  · rw [if_neg h]
    exact agent_find?_appendSet row agents (Bool.eq_false_iff.mpr h)

lemma countP_agentUpsert (agents : List AgentRow) (row : AgentRow) :
    (stmtAgentUpsert agents row).countP (fun a => a.agent_id == row.agent_id)
      = max 1 (agents.countP (fun a => a.agent_id == row.agent_id)) := by
  unfold stmtAgentUpsert
  by_cases h : agents.any (fun a => a.agent_id == row.agent_id) = true
  · rw [if_pos h]
    have hmap : ∀ (l : List AgentRow),
        (l.map (fun a => if a.agent_id == row.agent_id then row else a)).countP
          (fun a => a.agent_id == row.agent_id)
        = l.countP (fun a => a.agent_id == row.agent_id) := by
      intro l
      induction l with
      | nil => rfl
      | cons a t ih =>
        rw [List.map_cons, List.countP_cons, List.countP_cons, ih]
        congr 1
        by_cases hk : (a.agent_id == row.agent_id) = true
        · rw [if_pos hk]
          simp [hk]
        · rw [if_neg hk]
    rw [hmap]
    have hpos : 0 < agents.countP (fun a => a.agent_id == row.agent_id) := by
      rcases List.any_eq_true.mp h with ⟨a, ha, hpa⟩
      exact List.countP_pos_iff.mpr ⟨a, ha, hpa⟩
    omega
  · rw [if_neg h]
    have hzero : agents.countP (fun a => a.agent_id == row.agent_id) = 0 := by
      rw [List.countP_eq_zero]
      intro a ha
      exact fun hpa => h (List.any_eq_true.mpr ⟨a, ha, hpa⟩)
    rw [List.countP_append, hzero]
    simp [List.countP_cons]

/-- C2 amended: inv_confirm_verification never regresses a verified agent (it
returns the stored proof and leaves the database untouched), and the
challenge upsert keeps at most one row per agent_id (re-issuing overwrites,
no fan-out); however inv_begin_verification (and its alias) called for ANY
existing agent — a verified one included — unconditionally overwrites the row
with a fresh 'pending' challenge, clearing verified_at and the proof
fields. -/
theorem verified_agent_handling (db : Db) (now : Int)
    (agentId wallet amountTon : String) (amountNano ttlMin : Int)
    (challengeTag agentWallet : String)
    (fetch : FetchParams → Except ApiError (List UpstreamEvent))
    (now2 : Int) (agentId2 aw2 : String) (ag : AgentRow)
    (h1 : agentId ≠ "") (h2 : wallet ≠ "") (h3 : agentId.length ≤ 64)
    (hget : stmtAgentGet db.agents agentId2 = some ag)
    (hst : ag.status = "verified") (hne : agentId2 ≠ "") :
    stmtAgentGet (invBeginCore db now agentId wallet amountTon amountNano
        ttlMin challengeTag agentWallet).2.agents agentId =
      some { agent_id := agentId
             wallet_address := some wallet
             status := "pending"
             challenge_tag := some challengeTag
             challenge_amount_ton := some amountTon
             challenge_amount_nano := some amountNano
             challenge_created_at := some now
             challenge_expires_at := some (now + ttlMin * 60000)
             verified_at := none
             proof_event_id := none
             proof_sender_wallet := none
             updated_at := some now } ∧
    (db.agents.countP (fun a => a.agent_id == agentId) ≤ 1 →
      (invBeginCore db now agentId wallet amountTon amountNano ttlMin
          challengeTag agentWallet).2.agents.countP
        (fun a => a.agent_id == agentId) = 1) ∧
    invConfirmCore db fetch now2 agentId2 aw2 =
      (.ok { status := ag.status
             wallet_address := ag.wallet_address
             verified_at := ag.verified_at
             proof_event_id := ag.proof_event_id }, db) := by
  refine ⟨?_, ?_, ?_⟩
  · unfold invBeginCore
    rw [if_neg h1, if_neg h2, if_neg (not_lt.mpr h3)]
    exact agentGet_upsert db.agents _
  · intro hle
    unfold invBeginCore
    rw [if_neg h1, if_neg h2, if_neg (not_lt.mpr h3)]
    show (stmtAgentUpsert db.agents
      { agent_id := agentId
        wallet_address := some wallet
        status := "pending"
        challenge_tag := some challengeTag
        challenge_amount_ton := some amountTon
        challenge_amount_nano := some amountNano
        challenge_created_at := some now
        challenge_expires_at := some (now + ttlMin * 60000)
        verified_at := none
        proof_event_id := none
        proof_sender_wallet := none
        updated_at := some now }).countP (fun a => a.agent_id == agentId) = 1
    have hcnt : List.countP (fun a => a.agent_id == agentId)
        (stmtAgentUpsert db.agents
          ⟨agentId, some wallet, "pending", some challengeTag, some amountTon,
           some amountNano, some now, some (now + ttlMin * 60000), none, none,
           none, some now⟩)
        = max 1 (List.countP (fun a => a.agent_id == agentId) db.agents) :=
      countP_agentUpsert db.agents
        ⟨agentId, some wallet, "pending", some challengeTag, some amountTon,
         some amountNano, some now, some (now + ttlMin * 60000), none, none,
         none, some now⟩
    omega
  · unfold invConfirmCore
    rw [if_neg hne, hget]
    simp [hst]

/-- Witness for the amended C2: with the concrete verified-agent database,
creating a challenge for a fresh agent yields exactly the pending row, and
confirming the already-verified agent returns the stored proof with the
database unchanged. -/
theorem verified_agent_handling_witness :
    stmtAgentGet (invBeginCore c2Db 5000 "bob" "w3" "0.01" 10000000 60
        "REG#bob#cccc" "aw").2.agents "bob" =
      some { agent_id := "bob"
             wallet_address := some "w3"
             status := "pending"
             challenge_tag := some "REG#bob#cccc"
             challenge_amount_ton := some "0.01"
             challenge_amount_nano := some 10000000
             challenge_created_at := some 5000
             challenge_expires_at := some 3605000
             verified_at := none
             proof_event_id := none
             proof_sender_wallet := none
             updated_at := some 5000 } ∧
    invConfirmCore c2Db (fun _ => .ok []) 5000 "alice" "aw" =
      (.ok { status := c2VerifiedAgent.status
             wallet_address := c2VerifiedAgent.wallet_address
             verified_at := c2VerifiedAgent.verified_at
             proof_event_id := c2VerifiedAgent.proof_event_id }, c2Db) :=
  ⟨(verified_agent_handling c2Db 5000 "bob" "w3" "0.01" 10000000 60
      "REG#bob#cccc" "aw" (fun _ => .ok []) 5000 "alice" "aw" c2VerifiedAgent
      (by decide) (by decide) (by decide) (by decide) rfl (by decide)).1,
   (verified_agent_handling c2Db 5000 "bob" "w3" "0.01" 10000000 60
      "REG#bob#cccc" "aw" (fun _ => .ok []) 5000 "alice" "aw" c2VerifiedAgent
      (by decide) (by decide) (by decide) (by decide) rfl (by decide)).2.2⟩

-- C6 and C10: lazy expiry ------------------------------------------------------

/-- C6: a pending invoice (respectively a pending verification challenge)
whose set expiry parses to a positive time strictly before the check time is
reported 'expired' by inv_check (respectively inv_confirm_verification) — the
expiry branch runs before the matcher is ever consulted, so no cached
transfer, however well it matches, can produce 'paid' or 'verified' there. -/
theorem lazy_expiry (db : Db)
    (fetch : FetchParams → Except ApiError (List UpstreamEvent)) (now : Int)
    (i : String) (inv : InvoiceRow) (e1 : Int)
    (a aw : String) (ag : AgentRow) (e2 : Int)
    (hi : i ≠ "") (hgi : stmtInvoiceGet db.invoices i = some inv)
    (hsi : inv.status = "pending") (hei : inv.expires_at = some e1)
    (he1pos : 0 < e1) (he1 : e1 < now)
    (ha : a ≠ "") (hga : stmtAgentGet db.agents a = some ag)
    (hsa : ag.status = "pending") (hea : ag.challenge_expires_at = some e2)
    (he2pos : 0 < e2) (he2 : e2 < now) :
    (invCheckCore db fetch now i).1 =
      .ok { status := "expired", expires_at := some e1 } ∧
    (invConfirmCore db fetch now a aw).1 =
      .ok { status := "expired", challenge_expires_at := some e2 } := by
  have h1 : ¬ (inv.status = "paid") := by rw [hsi]; decide
  have h2 : expiredNow (some e1) now = true := by
    show (e1 != 0 && decide (e1 < now)) = true
    simp only [Bool.and_eq_true, bne_iff_ne, ne_eq, decide_eq_true_eq]
    exact ⟨he1pos.ne', he1⟩
  have h3 : ¬ (ag.status = "verified") := by rw [hsa]; decide
  have h4 : expiredNow (some e2) now = true := by
    show (e2 != 0 && decide (e2 < now)) = true
    simp only [Bool.and_eq_true, bne_iff_ne, ne_eq, decide_eq_true_eq]
    exact ⟨he2pos.ne', he2⟩
  constructor
  · unfold invCheckCore
    rw [if_neg hi, hgi]
    simp [h1, h2, hei]
  · unfold invConfirmCore
    rw [if_neg ha, hga]
    simp [h3, h4, hea]

/-- Pending invoice expiring at t = 100 used by the expiry witnesses. -/
def c6Invoice : InvoiceRow :=
  { invoice_id := "i1"
    created_at := 50
    expires_at := some 100
    amount_ton := "1"
    amount_nano := 1000000000
    recipient_wallet := "rw"
    expected_sender_wallet := none
    payer_agent := none
    payer_agent_verified := some 0
    description := none
    comment := "INV#i1"
    status := "pending"
    strict_sender := some 0
    paid_at := none
    tx_event_id := none
    tx_sender_wallet := none
    tx_amount_nano := none
    tx_amount_ton := none
    last_checked_at := none }

/-- Pending challenge expiring at t = 100 used by the expiry witnesses. -/
def c6Agent : AgentRow :=
  { agent_id := "al"
    wallet_address := some "w1"
    status := "pending"
    challenge_tag := some "REG#al#x"
    challenge_amount_ton := some "0.01"
    challenge_amount_nano := some 10000000
    challenge_created_at := some 50
    challenge_expires_at := some 100
    verified_at := none
    proof_event_id := none
    proof_sender_wallet := none
    updated_at := some 50 }

/-- Database holding the expired-but-pending invoice and challenge, and even
a cached transfer that would match the invoice tag and window perfectly. -/
def c6Db : Db :=
  { agents := [c6Agent]
    invoices := [c6Invoice]
    rate_limits := []
    wallet_sync := []
    transfers := [⟨"rw", "e1", 0, some 7, some 60, some "s", some "rw",
      some 2000000000, "INV#i1", some "INV#i1", 60⟩] }

/-- Witness for C6 at time 200 (past both expiries): both tools report
'expired' despite the matching cached transfer. -/
theorem lazy_expiry_witness :
    (invCheckCore c6Db (fun _ => .ok []) 200 "i1").1 =
      .ok { status := "expired", expires_at := some 100 } ∧
    (invConfirmCore c6Db (fun _ => .ok []) 200 "al" "rw").1 =
      .ok { status := "expired", challenge_expires_at := some 100 } :=
  lazy_expiry c6Db (fun _ => .ok []) 200 "i1" c6Invoice 100 "al" "rw" c6Agent 100
    (by decide) rfl rfl rfl (by decide) (by decide)
    (by decide) rfl rfl rfl (by decide) (by decide)

/-- C10: on the expiry path the two state machines differ — inv_check
persists the transition (it writes status 'expired' to the invoice row),
while inv_confirm_verification only reports it, leaving the whole database —
in particular the agent row, whose stored status stays 'pending' —
unchanged. -/
theorem expiry_persistence_asymmetry (db : Db)
    (fetch : FetchParams → Except ApiError (List UpstreamEvent)) (now : Int)
    (i : String) (inv : InvoiceRow) (e1 : Int)
    (a aw : String) (ag : AgentRow) (e2 : Int)
    (hi : i ≠ "") (hgi : stmtInvoiceGet db.invoices i = some inv)
    (hsi : inv.status = "pending") (hei : inv.expires_at = some e1)
    (he1pos : 0 < e1) (he1 : e1 < now)
    (ha : a ≠ "") (hga : stmtAgentGet db.agents a = some ag)
    (hsa : ag.status = "pending") (hea : ag.challenge_expires_at = some e2)
    (he2pos : 0 < e2) (he2 : e2 < now) :
    invConfirmCore db fetch now a aw =
      (.ok { status := "expired", challenge_expires_at := some e2 }, db) ∧
    (invCheckCore db fetch now i).2 =
      { db with invoices := stmtInvoiceUpdateStatus db.invoices "expired" i } := by
  have h1 : ¬ (inv.status = "paid") := by rw [hsi]; decide
  have h2 : expiredNow (some e1) now = true := by
    show (e1 != 0 && decide (e1 < now)) = true
    simp only [Bool.and_eq_true, bne_iff_ne, ne_eq, decide_eq_true_eq]
    exact ⟨he1pos.ne', he1⟩
  have h3 : ¬ (ag.status = "verified") := by rw [hsa]; decide
  have h4 : expiredNow (some e2) now = true := by
    show (e2 != 0 && decide (e2 < now)) = true
    simp only [Bool.and_eq_true, bne_iff_ne, ne_eq, decide_eq_true_eq]
    exact ⟨he2pos.ne', he2⟩
  constructor
  · unfold invConfirmCore
    rw [if_neg ha, hga]
    simp [h3, h4, hea]
  · unfold invCheckCore
    rw [if_neg hi, hgi]
    simp [h1, h2, hei]

/-- Witness for C10 at the same concrete state: confirm leaves the database
untouched (agent still 'pending'), while check rewrites the invoice row. -/
theorem expiry_persistence_asymmetry_witness :
    invConfirmCore c6Db (fun _ => .ok []) 200 "al" "rw" =
      (.ok { status := "expired", challenge_expires_at := some 100 }, c6Db) ∧
    (invCheckCore c6Db (fun _ => .ok []) 200 "i1").2 =
      { c6Db with
        invoices := stmtInvoiceUpdateStatus c6Db.invoices "expired" "i1" } :=
  expiry_persistence_asymmetry c6Db (fun _ => .ok []) 200 "i1" c6Invoice 100
    "al" "rw" c6Agent 100
    (by decide) rfl rfl rfl (by decide) (by decide)
    (by decide) rfl rfl rfl (by decide) (by decide)

-- C3: a paid invoice is terminal and immutable ---------------------------------

lemma invoiceGet_some_id {invoices : List InvoiceRow} {i : String}
    {inv : InvoiceRow} (h : stmtInvoiceGet invoices i = some inv) :
    inv.invoice_id = i := by
  have := List.find?_some h
  simpa using this

lemma invFind?_cons_pos {r : InvoiceRow} {t : List InvoiceRow} {i : String}
    (hp : (r.invoice_id == i) = true) :
    (r :: t).find? (fun y => y.invoice_id == i) = some r :=
  List.find?_cons_of_pos _ hp

lemma invFind?_cons_neg {r : InvoiceRow} {t : List InvoiceRow} {i : String}
    (hp : (r.invoice_id == i) = false) :
    (r :: t).find? (fun y => y.invoice_id == i)
      = t.find? (fun y => y.invoice_id == i) :=
  List.find?_cons_of_neg _ (by simp [hp])

lemma invoiceGet_mapIf_frame (f : InvoiceRow → InvoiceRow)
    (hf : ∀ r, (f r).invoice_id = r.invoice_id) (i j : String)
    (inv : InvoiceRow) (hne : i ≠ j) :
    ∀ (invoices : List InvoiceRow),
      stmtInvoiceGet invoices i = some inv →
      stmtInvoiceGet
          (invoices.map (fun r => if r.invoice_id == j then f r else r)) i
        = some inv := by
  have hgid : ∀ r : InvoiceRow,
      (((if (r.invoice_id == j) = true then f r else r).invoice_id == i) :
        Bool) = (r.invoice_id == i) := by
    intro r
    by_cases hj : (r.invoice_id == j) = true
    · rw [if_pos hj, hf]
    · rw [if_neg hj]
  intro invoices
  induction invoices with
  | nil => intro h; simp [stmtInvoiceGet] at h
  | cons r t ih =>
    intro h
    unfold stmtInvoiceGet at h ⊢
    rw [List.map_cons]
    by_cases hp : (r.invoice_id == i) = true
    · rw [invFind?_cons_pos hp] at h
      cases h
      rw [invFind?_cons_pos (by rw [hgid]; exact hp)]
      have hij : (inv.invoice_id == j) = false := by
        have : inv.invoice_id = i := by simpa using hp
        rw [this]
        simpa using hne
      rw [if_neg (by simp [hij])]
    · have hp' : (r.invoice_id == i) = false := Bool.eq_false_iff.mpr hp
      rw [invFind?_cons_neg hp'] at h
      rw [invFind?_cons_neg (by rw [hgid]; exact hp')]
      exact ih h

lemma invoiceGet_append_frame (i : String) (inv x : InvoiceRow) :
    ∀ (invoices : List InvoiceRow),
      stmtInvoiceGet invoices i = some inv →
      stmtInvoiceGet (invoices ++ [x]) i = some inv := by
  intro invoices
  induction invoices with
  | nil => intro h; simp [stmtInvoiceGet] at h
  | cons r t ih =>
    intro h
    unfold stmtInvoiceGet at h ⊢
    rw [List.cons_append]
    by_cases hp : (r.invoice_id == i) = true
    · rw [invFind?_cons_pos hp] at h
      rw [invFind?_cons_pos hp]
      exact h
    · have hp' : (r.invoice_id == i) = false := Bool.eq_false_iff.mpr hp
      rw [invFind?_cons_neg hp'] at h
      rw [invFind?_cons_neg hp']
      exact ih h

lemma updateStatus_frame (invoices : List InvoiceRow) (st i j : String)
    (inv : InvoiceRow) (h : stmtInvoiceGet invoices i = some inv)
    (hne : i ≠ j) :
    stmtInvoiceGet (stmtInvoiceUpdateStatus invoices st j) i = some inv :=
  invoiceGet_mapIf_frame (fun r => { r with status := st }) (fun _ => rfl)
    i j inv hne invoices h

lemma updateLastCheck_frame (invoices : List InvoiceRow) (ts : Int)
    (i j : String) (inv : InvoiceRow)
    (h : stmtInvoiceGet invoices i = some inv) (hne : i ≠ j) :
    stmtInvoiceGet (stmtInvoiceUpdateLastCheck invoices ts j) i = some inv :=
  invoiceGet_mapIf_frame (fun r => { r with last_checked_at := some ts })
    (fun _ => rfl) i j inv hne invoices h

lemma markPaid_frame (invoices : List InvoiceRow) (paidAt : Int)
    (txEventId : String) (txSender : Option String) (txAmountNano : Option Int)
    (txAmountTon : Option String) (i j : String) (inv : InvoiceRow)
    (h : stmtInvoiceGet invoices i = some inv) (hne : i ≠ j) :
    stmtInvoiceGet (stmtInvoiceMarkPaid invoices paidAt txEventId txSender
        txAmountNano txAmountTon j) i = some inv :=
  invoiceGet_mapIf_frame
    (fun r => { r with
      status := "paid"
      paid_at := some paidAt
      tx_event_id := some txEventId
      tx_sender_wallet := txSender
      tx_amount_nano := txAmountNano
      tx_amount_ton := txAmountTon })
    (fun _ => rfl) i j inv hne invoices h

lemma invReceiptCore_state (db : Db) (j : String) :
    (invReceiptCore db j).2 = db := by
  unfold invReceiptCore
  split
  · rfl
  · split
    · rfl
    · split
      · rfl
      · rfl

lemma invBeginCore_invoices (db : Db) (now : Int) (agentId wallet : String)
    (amountTon : String) (amountNano ttlMin : Int)
    (challengeTag agentWallet : String) :
    (invBeginCore db now agentId wallet amountTon amountNano ttlMin
        challengeTag agentWallet).2.invoices = db.invoices := by
  unfold invBeginCore
  split
  · rfl
  · split
    · rfl
    · split
      · rfl
      · rfl

lemma invConfirmCore_invoices (db : Db)
    (fetch : FetchParams → Except ApiError (List UpstreamEvent))
    (now : Int) (a aw : String) :
    (invConfirmCore db fetch now a aw).2.invoices = db.invoices := by
  simp only [invConfirmCore]
  split
  · rfl
  · split
    · rfl
    next ag heq =>
      split
      · rfl
      · split
        · rfl
        · obtain ⟨tr, ws, hs⟩ := findTransferWithSync_shape db fetch now aw
            { tag := ag.challenge_tag
              minAmountNano := ag.challenge_amount_nano.getD 0
              expectedSender := ag.wallet_address
              strictSender := true
              startMs := ag.challenge_created_at
              endMs := some (ag.challenge_expires_at.getD now) }
          split
          · rw [hs]
          · split
            · rw [hs]
            · show ({ (findTransferWithSync db fetch now aw _).2 with
                agents := _ } : Db).invoices = db.invoices
              rw [hs]

lemma invCheckCore_frame (db : Db)
    (fetch : FetchParams → Except ApiError (List UpstreamEvent))
    (now : Int) (j i : String) (inv : InvoiceRow)
    (h : stmtInvoiceGet db.invoices i = some inv) (hp : inv.status = "paid") :
    stmtInvoiceGet (invCheckCore db fetch now j).2.invoices i = some inv := by
  simp only [invCheckCore]
  split
  · exact h
  · split
    · exact h
    next inv2 heq =>
      split
      · exact h
      next hnotpaid =>
        have hne : i ≠ j := by
          intro hij
          subst hij
          rw [h] at heq
          cases heq
          exact hnotpaid hp
        split
        · exact updateStatus_frame db.invoices "expired" i j inv h hne
        · split
          · exact h
          · obtain ⟨tr, ws, hs⟩ := findTransferWithSync_shape db fetch now
              inv2.recipient_wallet
              { tag := some ("INV#" ++ j)
                minAmountNano := inv2.amount_nano
                expectedSender := inv2.expected_sender_wallet
                strictSender := inv2.strict_sender == some 1
                startMs := some inv2.created_at
                endMs := some (inv2.expires_at.getD now) }
            have hinv : (findTransferWithSync db fetch now inv2.recipient_wallet
                { tag := some ("INV#" ++ j)
                  minAmountNano := inv2.amount_nano
                  expectedSender := inv2.expected_sender_wallet
                  strictSender := inv2.strict_sender == some 1
                  startMs := some inv2.created_at
                  endMs := some (inv2.expires_at.getD now) }).2.invoices
                = db.invoices := by rw [hs]
            split
            · rw [hinv]
              exact h
            · split
              · rw [hinv]
                exact updateLastCheck_frame db.invoices now i j inv h hne
              · rw [hinv]
                exact markPaid_frame _ _ _ _ _ _ i j inv
                  (updateLastCheck_frame db.invoices now i j inv h hne) hne

lemma invCreateCore_frame (db : Db) (now : Int) (amountTon : String)
    (amountNano : Int) (d pa pw ro : Option String) (em : Option Int)
    (io : Option String) (so au : Option Bool) (aw gid : String)
    (i : String) (inv : InvoiceRow)
    (h : stmtInvoiceGet db.invoices i = some inv) :
    stmtInvoiceGet (invCreateCore db now amountTon amountNano d pa pw ro em io
        so au aw gid).2.invoices i = some inv := by
  simp only [invCreateCore]
  split
  · exact h
  · split
    · exact h
    · split
      · exact h
      · split
        · exact h
        · exact invoiceGet_append_frame i inv _ db.invoices h

/-- C3: a paid invoice is terminal and immutable — inv_check on it returns
the stored status and proof fields (paid_at, tx_event_id, tx_sender_wallet,
tx_amount_ton) without running the matcher and without touching the database,
and no tool — inv_check on any target id, inv_confirm_verification,
inv_begin_verification (and its alias), inv_create, inv_receipt — ever
modifies the stored paid row; repeated checks therefore return identical
proofs, and a later second payment to the same tag cannot change the
resolved state. -/
theorem paid_invoice_terminal (db : Db)
    (fetch : FetchParams → Except ApiError (List UpstreamEvent)) (now : Int)
    (i : String) (inv : InvoiceRow)
    (hi : i ≠ "") (h : stmtInvoiceGet db.invoices i = some inv)
    (hp : inv.status = "paid") :
    invCheckCore db fetch now i =
      (.ok { status := inv.status
             paid_at := inv.paid_at
             tx_event_id := inv.tx_event_id
             tx_sender_wallet := inv.tx_sender_wallet
             tx_amount_ton := inv.tx_amount_ton }, db) ∧
    (∀ j, stmtInvoiceGet (invCheckCore db fetch now j).2.invoices i
        = some inv) ∧
    (∀ a aw, stmtInvoiceGet (invConfirmCore db fetch now a aw).2.invoices i
        = some inv) ∧
    (∀ agentId wallet amountTon amountNano ttlMin tag agw,
      stmtInvoiceGet (invBeginCore db now agentId wallet amountTon amountNano
          ttlMin tag agw).2.invoices i = some inv) ∧
    (∀ amountTon amountNano d pa pw ro em io so au agw gid,
      stmtInvoiceGet (invCreateCore db now amountTon amountNano d pa pw ro em
          io so au agw gid).2.invoices i = some inv) ∧
    (∀ j, stmtInvoiceGet (invReceiptCore db j).2.invoices i = some inv) := by
  refine ⟨?_, fun j => invCheckCore_frame db fetch now j i inv h hp,
    fun a aw => by rw [invConfirmCore_invoices]; exact h,
    fun agentId wallet amountTon amountNano ttlMin tag agw => by
      rw [invBeginCore_invoices]; exact h,
    fun amountTon amountNano d pa pw ro em io so au agw gid =>
      invCreateCore_frame db now amountTon amountNano d pa pw ro em io so au
        agw gid i inv h,
    fun j => by rw [invReceiptCore_state]; exact h⟩
  unfold invCheckCore
  rw [if_neg hi, h]
  simp [hp]

/-- A paid invoice with its payment proof, for the C3 witness. -/
def c3Invoice : InvoiceRow :=
  { invoice_id := "p1"
    created_at := 50
    expires_at := none
    amount_ton := "1.5"
    amount_nano := 1500000000
    recipient_wallet := "rw"
    expected_sender_wallet := none
    payer_agent := none
    payer_agent_verified := some 0
    description := none
    comment := "INV#p1"
    status := "paid"
    paid_at := some 70000000
    strict_sender := some 0
    tx_event_id := some "e1"
    tx_sender_wallet := some "s"
    tx_amount_nano := some 1500000000
    tx_amount_ton := some "1.5"
    last_checked_at := some 70 }

def c3Db : Db :=
  { agents := []
    invoices := [c3Invoice]
    rate_limits := []
    wallet_sync := []
    transfers := [] }

/-- Witness for C3: checking the concrete paid invoice returns its stored
proof with the database unchanged, and checking a different id leaves the
paid row intact. -/
theorem paid_invoice_terminal_witness :
    invCheckCore c3Db (fun _ => .ok []) 99 "p1" =
      (.ok { status := c3Invoice.status
             paid_at := c3Invoice.paid_at
             tx_event_id := c3Invoice.tx_event_id
             tx_sender_wallet := c3Invoice.tx_sender_wallet
             tx_amount_ton := c3Invoice.tx_amount_ton }, c3Db) ∧
    stmtInvoiceGet (invCheckCore c3Db (fun _ => .ok []) 99 "other").2.invoices
        "p1" = some c3Invoice :=
  ⟨(paid_invoice_terminal c3Db (fun _ => .ok []) 99 "p1" c3Invoice (by decide)
      rfl rfl).1,
   (paid_invoice_terminal c3Db (fun _ => .ok []) 99 "p1" c3Invoice (by decide)
      rfl rfl).2.1 "other"⟩

-- C5: an exhausted upstream fetch aborts the matcher --------------------------

lemma syncNewLoop_error
    (fetch : FetchParams → Except ApiError (List UpstreamEvent))
    (wallet : String) (sd ed : Option Int) (nowIso : Int) (e : ApiError)
    (hf : ∀ p, fetch p = .error e) :
    ∀ (fuel : Nat), fuel ≠ 0 → ∀ (afterLt : Option Int) (stats : PageStats)
      (anyE : Nat) (cache : List TransferRow),
      syncNewLoop fetch wallet sd ed nowIso fuel afterLt stats anyE cache
        = ⟨some e, anyE, stats, cache⟩ := by
  intro fuel hfuel
  cases fuel with
  | zero => exact absurd rfl hfuel
  | succ n =>
    intro afterLt stats anyE cache
    simp only [syncNewLoop]
    rw [hf]

lemma syncNewEvents_error (db : Db)
    (fetch : FetchParams → Except ApiError (List UpstreamEvent))
    (now : Int) (wallet : String) (sd ed : Option Int) (e : ApiError)
    (hf : ∀ p, fetch p = .error e) :
    syncNewEvents db fetch now wallet sd ed = (.error e, db) := by
  simp only [syncNewEvents]
  rw [syncNewLoop_error fetch wallet sd ed now e hf 3 (by decide)]

lemma findTransferWithSync_error (db : Db)
    (fetch : FetchParams → Except ApiError (List UpstreamEvent))
    (now : Int) (wallet : String) (crit : Criteria) (e : ApiError)
    (hq : queryCachedTransfer db.transfers wallet crit.tag crit.startMs
      crit.endMs crit.minAmountNano crit.expectedSender crit.strictSender
        = none)
    (hws : getWalletSync db wallet = none)
    (hf : ∀ p, fetch p = .error e) :
    findTransferWithSync db fetch now wallet crit = (.error e, db) := by
  simp only [findTransferWithSync]
  rw [hq]
  simp only [hws]
  rw [syncNewEvents_error db fetch now wallet crit.startMs crit.endMs e hf]
  rfl

/-- A pending, non-expiring, non-strict invoice with a cold cache. -/
def c5Invoice : InvoiceRow :=
  { invoice_id := "i1"
    created_at := 1000
    expires_at := none
    amount_ton := "1"
    amount_nano := 1000000000
    recipient_wallet := "rw"
    expected_sender_wallet := none
    payer_agent := none
    payer_agent_verified := some 0
    description := none
    comment := "INV#i1"
    status := "pending"
    strict_sender := some 0
    paid_at := none
    tx_event_id := none
    tx_sender_wallet := none
    tx_amount_nano := none
    tx_amount_ton := none
    last_checked_at := none }

/-- A pending, non-expiring verification challenge. -/
def c5Agent : AgentRow :=
  { agent_id := "al"
    wallet_address := some "w1"
    status := "pending"
    challenge_tag := some "REG#al#x"
    challenge_amount_ton := some "0.01"
    challenge_amount_nano := some 10000000
    challenge_created_at := some 1000
    challenge_expires_at := none
    verified_at := none
    proof_event_id := none
    proof_sender_wallet := none
    updated_at := some 1000 }

def c5Db : Db :=
  { agents := [c5Agent]
    invoices := [c5Invoice]
    rate_limits := []
    wallet_sync := []
    transfers := [] }

/-- An upstream whose every attempt fails with a retryable 503. -/
def c5Attempts : FetchParams → Nat → Except ApiError (List UpstreamEvent) :=
  fun _ _ => .error ⟨some 503, "TONAPI error: 503"⟩

/-- The retried fetch built from `c5Attempts`: three attempts, all failing. -/
def c5Fetch : FetchParams → Except ApiError (List UpstreamEvent) :=
  fun p => tonapiFetchWithRetry (c5Attempts p) 0 3

/-- C5 counterexample: with every upstream attempt failing (all three retries
exhausted), inv_check on a pending invoice with a cold cache returns the
success=false error result carrying the upstream message — not a transient
pending/throttled/not_found status — so the exhausted-retries error DOES
surface to the tool caller as an error result. -/
theorem retry_error_surfaces_counterexample :
    (invCheckCore c5Db c5Fetch 2000 "i1").1 = .err "TONAPI error: 503" ∧
    ∀ d, (invCheckCore c5Db c5Fetch 2000 "i1").1 ≠ .ok d := by
  constructor
  · decide
  · intro d hd
    rw [show (invCheckCore c5Db c5Fetch 2000 "i1").1
        = .err "TONAPI error: 503" from by decide] at hd
    exact ToolResult.noConfusion hd

/-- C5 amended: when the cache misses, the wallet has no sync row (so the
call is not throttled) and every retry attempt of the upstream fetch fails,
the error from `tonapiFetchWithRetry` propagates uncaught through
`findTransferWithSync` to the tool boundary: both inv_check and
inv_confirm_verification return the success=false error result carrying the
upstream message instead of a pending/throttled/not_found status. -/
theorem retry_exhaustion_error_result (db : Db)
    (attempts : FetchParams → Nat → Except ApiError (List UpstreamEvent))
    (e : ApiError) (hatt : ∀ p i, attempts p i = .error e) (now : Int)
    (i : String) (inv : InvoiceRow) (a aw : String) (ag : AgentRow)
    (hi : i ≠ "") (hgi : stmtInvoiceGet db.invoices i = some inv)
    (hsi : inv.status = "pending")
    (hexp : expiredNow inv.expires_at now = false)
    (hss : inv.strict_sender = some 0)
    (hq1 : queryCachedTransfer db.transfers inv.recipient_wallet
        (some ("INV#" ++ i)) (some inv.created_at)
        (some (inv.expires_at.getD now)) inv.amount_nano
        inv.expected_sender_wallet false = none)
    (hws1 : getWalletSync db inv.recipient_wallet = none)
    (ha : a ≠ "") (hga : stmtAgentGet db.agents a = some ag)
    (hsa : ag.status = "pending")
    (hexpa : expiredNow ag.challenge_expires_at now = false)
    (hq2 : queryCachedTransfer db.transfers aw ag.challenge_tag
        ag.challenge_created_at (some (ag.challenge_expires_at.getD now))
        (ag.challenge_amount_nano.getD 0) ag.wallet_address true = none)
    (hws2 : getWalletSync db aw = none) :
    (invCheckCore db (fun p => tonapiFetchWithRetry (attempts p) 0 3) now i).1
      = .err e.msg ∧
    (invConfirmCore db (fun p => tonapiFetchWithRetry (attempts p) 0 3) now a
        aw).1 = .err e.msg := by
  have hf : ∀ p, (fun p => tonapiFetchWithRetry (attempts p) 0 3) p
      = .error e :=
    fun p => tonapiFetchWithRetry_exhausted e (attempts p) (hatt p) 3
      (by omega) 0
  constructor
  · have h1 : ¬ (inv.status = "paid") := by rw [hsi]; decide
    have hstr : (inv.strict_sender == some 1) = false := by rw [hss]; decide
    have hfind := findTransferWithSync_error db
      (fun p => tonapiFetchWithRetry (attempts p) 0 3) now inv.recipient_wallet
      { tag := some ("INV#" ++ i)
        minAmountNano := inv.amount_nano
        expectedSender := inv.expected_sender_wallet
        strictSender := false
        startMs := some inv.created_at
        endMs := some (inv.expires_at.getD now) } e hq1 hws1 hf
    unfold invCheckCore
    rw [if_neg hi, hgi]
    simp [h1, hexp, hstr, hfind]
  · have h3 : ¬ (ag.status = "verified") := by rw [hsa]; decide
    have hfind2 := findTransferWithSync_error db
      (fun p => tonapiFetchWithRetry (attempts p) 0 3) now aw
      { tag := ag.challenge_tag
        minAmountNano := ag.challenge_amount_nano.getD 0
        expectedSender := ag.wallet_address
        strictSender := true
        startMs := ag.challenge_created_at
        endMs := some (ag.challenge_expires_at.getD now) } e hq2 hws2 hf
    unfold invConfirmCore
    rw [if_neg ha, hga]
    simp [h3, hexpa, hfind2]

/-- Witness for the amended C5 at the concrete cold-cache state: both tools
surface the upstream 503 message as an error result. -/
theorem retry_exhaustion_error_result_witness :
    (invCheckCore c5Db c5Fetch 2000 "i1").1 = .err "TONAPI error: 503" ∧
    (invConfirmCore c5Db c5Fetch 2000 "al" "aw").1 = .err "TONAPI error: 503" :=
  ⟨(retry_exhaustion_error_result c5Db c5Attempts ⟨some 503, "TONAPI error: 503"⟩
      (fun _ _ => rfl) 2000 "i1" c5Invoice "al" "aw" c5Agent
      (by decide) rfl rfl rfl rfl (by decide) rfl
      (by decide) rfl rfl rfl (by decide) rfl).1,
   (retry_exhaustion_error_result c5Db c5Attempts ⟨some 503, "TONAPI error: 503"⟩
      (fun _ _ => rfl) 2000 "i1" c5Invoice "al" "aw" c5Agent
      (by decide) rfl rfl rfl rfl (by decide) rfl
      (by decide) rfl rfl rfl (by decide) rfl).2⟩

-- C9: transfers cached without a timestamp are unmatchable ---------------------

lemma queryCachedTransfer_ts_isSome {cache : List TransferRow} {wallet : String}
    {tag : Option String} {s e : Option Int} {minA : Int} {es : Option String}
    {strict : Bool} {r : TransferRow}
    (h : queryCachedTransfer cache wallet tag s e minA es strict = some r) :
    r.timestamp.isSome = true := by
  have hmem : r ∈ (sortByTimestamp
      (cache.filter (transferWhere wallet tag s e))).take 50 :=
    List.mem_of_find?_eq_some h
  have hw : transferWhere wallet tag s e r = true :=
    (List.mem_filter.mp (mem_sortByTimestamp.mp (List.take_subset _ _ hmem))).2
  cases hts : r.timestamp with
  | some t => rfl
  | none =>
    exfalso
    unfold transferWhere at hw
    rw [hts] at hw
    simp at hw

/-- C9: a transfer cached without a timestamp can never be returned by the
matcher.  `ingestEvents` does insert such rows (an event with no parsable
time field yields `timestamp = none`, second conjunct), but every row the
matcher `findTransferWithSync` returns — through any of its cache or sync
paths, all of which go through `stmtTransferQuery`'s
`timestamp IS NOT NULL AND timestamp >= ? AND timestamp <= ?` filter — has a
non-null timestamp, so such a row can never produce 'paid' or 'verified'. -/
theorem null_timestamp_never_matched (db : Db)
    (fetch : FetchParams → Except ApiError (List UpstreamEvent)) (now : Int)
    (wallet : String) (crit : Criteria) (r : TransferRow) (src : String)
    (db' : Db)
    (h : findTransferWithSync db fetch now wallet crit
        = (.ok (some r, src), db')) :
    r.timestamp.isSome = true ∧
    (∀ (w : String) (t : Int) (ev : UpstreamEvent) (i : Nat)
        (tp : TonTransferPayload), ev.ts = none →
      (actionRow w t ev i tp).timestamp = none) := by
  constructor
  · simp only [findTransferWithSync] at h
    split at h
    next r0 heq =>
      simp only [Prod.mk.injEq, Except.ok.injEq, Option.some.injEq] at h
      obtain ⟨⟨hro, -⟩, -⟩ := h
      subst hro
      exact queryCachedTransfer_ts_isSome heq
    · split at h
      · simp at h
      · split at h
        · simp at h
        · split at h
          next r0 heq =>
            simp only [Prod.mk.injEq, Except.ok.injEq, Option.some.injEq] at h
            obtain ⟨⟨hro, -⟩, -⟩ := h
            subst hro
            exact queryCachedTransfer_ts_isSome heq
          · split at h
            · split at h
              · simp at h
              · split at h
                next r0 heq =>
                  simp only [Prod.mk.injEq, Except.ok.injEq,
                    Option.some.injEq] at h
                  obtain ⟨⟨hro, -⟩, -⟩ := h
                  subst hro
                  exact queryCachedTransfer_ts_isSome heq
                · simp at h
            · split at h
              next r0 heq => exact Option.noConfusion heq
              · simp at h
  · intro w t ev i tp hts
    simp [actionRow, eventTimeMs, hts]

/-- Cached transfer with a real timestamp, for the C9 witness. -/
def c9Row : TransferRow :=
  ⟨"rw", "e1", 0, some 7, some 60, some "s", some "rw", some 2000000000,
    "INV#i1", some "INV#i1", 60⟩

def c9Db : Db :=
  { agents := []
    invoices := []
    rate_limits := []
    wallet_sync := []
    transfers := [c9Row] }

/-- Witness for C9: the matcher returns the concrete cached row (source
"cache") and that row indeed carries a non-null timestamp. -/
theorem null_timestamp_never_matched_witness :
    c9Row.timestamp.isSome = true :=
  (null_timestamp_never_matched c9Db (fun _ => .ok []) 0 "rw"
    ⟨some "INV#i1", 100, none, false, some 0, some 100⟩ c9Row "cache" c9Db
    rfl).1
